import Mathlib

/-!
Verification development for the market-data synchronization engine of the
stock_analyzer repository.  The definitions below are a shallow embedding of
src/backend/batch/data_collector.py (class StockDataCollector) and of
src/backend/shared/database/database_manager.py (class DatabaseManager).
External collaborators (yfinance, sqlite) are modelled as environment
parameters; dates are modelled as integers (days), payloads by the
observations the code makes of them.
-/

namespace StockAnalyzer

/-! ### MD5 (hashlib.md5), needed by get_ticker_info_update_interval_days

A complete executable MD5 over byte lists (each byte a `Nat` < 256),
mirroring the RFC 1321 algorithm used by Python's hashlib. -/

/-- Word modulus 2^32 of MD5. -/
def w32 : Nat := 4294967296

/-- Left-rotation of a 32-bit word (input assumed < 2^32). -/
def rotl32 (x n : Nat) : Nat :=
  (((x <<< n) % w32) ||| (x >>> (32 - n)))

/-- Bitwise complement on 32-bit words. -/
def not32 (x : Nat) : Nat := 0xFFFFFFFF ^^^ x

/-- The 64 MD5 sine-derived constants (RFC 1321 table T). -/
def md5K : List Nat :=
  [0xd76aa478, 0xe8c7b756, 0x242070db, 0xc1bdceee,
   0xf57c0faf, 0x4787c62a, 0xa8304613, 0xfd469501,
   0x698098d8, 0x8b44f7af, 0xffff5bb1, 0x895cd7be,
   0x6b901122, 0xfd987193, 0xa679438e, 0x49b40821,
   0xf61e2562, 0xc040b340, 0x265e5a51, 0xe9b6c7aa,
   0xd62f105d, 0x02441453, 0xd8a1e681, 0xe7d3fbc8,
   0x21e1cde6, 0xc33707d6, 0xf4d50d87, 0x455a14ed,
   0xa9e3e905, 0xfcefa3f8, 0x676f02d9, 0x8d2a4c8a,
   0xfffa3942, 0x8771f681, 0x6d9d6122, 0xfde5380c,
   0xa4beea44, 0x4bdecfa9, 0xf6bb4b60, 0xbebfbc70,
   0x289b7ec6, 0xeaa127fa, 0xd4ef3085, 0x04881d05,
   0xd9d4d039, 0xe6db99e5, 0x1fa27cf8, 0xc4ac5665,
   0xf4292244, 0x432aff97, 0xab9423a7, 0xfc93a039,
   0x655b59c3, 0x8f0ccc92, 0xffeff47d, 0x85845dd1,
   0x6fa87e4f, 0xfe2ce6e0, 0xa3014314, 0x4e0811a1,
   0xf7537e82, 0xbd3af235, 0x2ad7d2bb, 0xeb86d391]

/-- The 64 MD5 per-round left-rotation amounts. -/
def md5S : List Nat :=
  [7, 12, 17, 22, 7, 12, 17, 22, 7, 12, 17, 22, 7, 12, 17, 22,
   5, 9, 14, 20, 5, 9, 14, 20, 5, 9, 14, 20, 5, 9, 14, 20,
   4, 11, 16, 23, 4, 11, 16, 23, 4, 11, 16, 23, 4, 11, 16, 23,
   6, 10, 15, 21, 6, 10, 15, 21, 6, 10, 15, 21, 6, 10, 15, 21]

/-- Little-endian rendering: k bytes of n, least significant first. -/
def leBytes : Nat → Nat → List Nat
  | 0, _ => []
  | k + 1, n => (n % 256) :: leBytes k (n / 256)

/-- MD5 message padding: append 0x80, zeros to 56 mod 64, then the
original bit length as 8 little-endian bytes. -/
def md5Pad (msg : List Nat) : List Nat :=
  let r := (msg.length + 1) % 64
  let zeros := (56 + 64 - r) % 64
  msg ++ [0x80] ++ List.replicate zeros 0 ++ leBytes 8 (msg.length * 8)

/-- Group a byte list into 32-bit little-endian words. -/
def leWords : List Nat → List Nat
  | b0 :: b1 :: b2 :: b3 :: rest =>
      (b0 + 256 * b1 + 65536 * b2 + 16777216 * b3) :: leWords rest
  | _ => []

/-- One MD5 round: mixes round `i` into the state `(a, b, c, d)` using the
message words `M` of the current chunk. -/
def md5Mix (M : List Nat) (st : Nat × Nat × Nat × Nat) (i : Nat) :
    Nat × Nat × Nat × Nat :=
  let (a, b, c, d) := st
  let fg : Nat × Nat :=
    if i < 16 then ((b &&& c) ||| (not32 b &&& d), i)
    else if i < 32 then ((d &&& b) ||| (not32 d &&& c), (5 * i + 1) % 16)
    else if i < 48 then (b ^^^ c ^^^ d, (3 * i + 5) % 16)
    else (c ^^^ (b ||| not32 d), (7 * i) % 16)
  let f := (fg.1 + a + md5K.getD i 0 + M.getD fg.2 0) % w32
  (d, (b + rotl32 f (md5S.getD i 0)) % w32, b, c)

/-- Process one 64-byte chunk, updating the running MD5 state. -/
def md5Chunk (st : Nat × Nat × Nat × Nat) (chunk : List Nat) :
    Nat × Nat × Nat × Nat :=
  let M := leWords chunk
  let r := (List.range 64).foldl (md5Mix M) st
  ((st.1 + r.1) % w32, (st.2.1 + r.2.1) % w32,
   (st.2.2.1 + r.2.2.1) % w32, (st.2.2.2 + r.2.2.2) % w32)

/-- Split a list into 64-element chunks (fuel-driven; fuel at least the
length of the list makes it total on its inputs). -/
def chunks64 : Nat → List Nat → List (List Nat)
  | 0, _ => []
  | _, [] => []
  | fuel + 1, xs => xs.take 64 :: chunks64 fuel (xs.drop 64)

/-- The 16 MD5 digest bytes of a byte message. -/
def md5Bytes (msg : List Nat) : List Nat :=
  let padded := md5Pad msg
  let r := (chunks64 padded.length padded).foldl md5Chunk
    (0x67452301, 0xefcdab89, 0x98badcfe, 0x10325476)
  leBytes 4 r.1 ++ leBytes 4 r.2.1 ++ leBytes 4 r.2.2.1 ++ leBytes 4 r.2.2.2

/-- The UTF-8 encoding of one character (str.encode in Python). -/
def charUtf8 (ch : Char) : List Nat :=
  let n := ch.toNat
  if n < 0x80 then [n]
  else if n < 0x800 then
    [0xC0 ||| (n >>> 6), 0x80 ||| (n &&& 0x3F)]
  else if n < 0x10000 then
    [0xE0 ||| (n >>> 12), 0x80 ||| ((n >>> 6) &&& 0x3F), 0x80 ||| (n &&& 0x3F)]
  else
    [0xF0 ||| (n >>> 18), 0x80 ||| ((n >>> 12) &&& 0x3F),
     0x80 ||| ((n >>> 6) &&& 0x3F), 0x80 ||| (n &&& 0x3F)]

/-- The UTF-8 encoding of a string (symbol.encode in the source). -/
def utf8Bytes (s : String) : List Nat := (s.data.map charUtf8).flatten

/-- Lower-case hexadecimal character for a value below 16. -/
def hexChar (n : Nat) : Char :=
  if n < 10 then Char.ofNat (48 + n) else Char.ofNat (87 + n)

/-- Two hex characters of one byte. -/
def byteHex (b : Nat) : List Char := [hexChar (b / 16), hexChar (b % 16)]

/-- Model of the hashlib hexdigest of a string: the 32-character hex rendering of the
16 MD5 digest bytes of its UTF-8 encoding. -/
def md5Hexdigest (s : String) : String :=
  String.mk (((md5Bytes (utf8Bytes s)).map byteHex).flatten)

/-- Value of one hex character (digits and lower-case letters). -/
def hexVal (c : Char) : Nat :=
  if c.toNat ≤ 57 then c.toNat - 48 else c.toNat - 87

/-- Python int(s, 16): big-endian hex string to natural number. -/
def hexToNat (s : String) : Nat :=
  s.data.foldl (fun acc c => 16 * acc + hexVal c) 0

/-- Source data_collector.py lines 52-59: get_ticker_info_update_interval_days.
Hash-spread update interval: base_days + (md5 integer mod 7). -/
def get_ticker_info_update_interval_days (symbol : String)
    (base_days : Nat := 14) : Nat :=
  base_days + hexToNat (md5Hexdigest symbol) % 7

/-! ### Symbols, result maps and observable events -/

/-- Lower-case of an ASCII character (str.lower on column names). -/
def lowerChar (c : Char) : Char :=
  if 65 ≤ c.toNat ∧ c.toNat ≤ 90 then Char.ofNat (c.toNat + 32) else c

/-- Lower-case of a string (str.lower on column names). -/
def lowerStr (s : String) : String := String.mk (s.data.map lowerChar)

/-- Source data_collector.py lines 43-50: format_symbol.  Appends ".T" unless the
symbol already ends with it (str.endswith modelled on the character list). -/
def format_symbol (s : String) : String :=
  if s.data.reverse.take 2 = ['T', '.'] then s else s ++ ".T"

/-- The per-entity result dictionary built by the update functions
(Python dict entry lookup; `none` = key absent). -/
def ResMap : Type := String → Option Bool

/-- Dictionary write results[k] = b. -/
def rset (m : ResMap) (k : String) (b : Bool) : ResMap :=
  fun s => if s = k then some b else m s

/-- Sequential loop writing `b` for every symbol of `l`
(for symbol in batch: results[symbol] = b). -/
def markAll (m : ResMap) (l : List String) (b : Bool) : ResMap :=
  l.foldl (fun r s => rset r s b) m

/-- Sequential loop writing `b` only for symbols not yet present
(data_collector.py lines 325-327: if remaining_symbol not in results). -/
def markMissing (m : ResMap) (l : List String) (b : Bool) : ResMap :=
  l.foldl (fun r s => if (r s).isNone then rset r s b else r) m

/-- Model of dict.fromkeys(symbols, b). -/
def fromkeys (l : List String) (b : Bool) : ResMap :=
  fun s => if l.contains s then some b else none

/-- Observable external events of a run: a provider call carrying the batch
symbol list, or a time.sleep of the given number of seconds. -/
inductive Ev where
  | call : List String → Ev
  | sleepFor : Nat → Ev
deriving DecidableEq, Repr

/-- The provider calls recorded in a trace. -/
def callsOf (tr : List Ev) : List (List String) :=
  tr.filterMap (fun e => match e with | Ev.call b => some b | _ => none)

/-- First-match lookup in an association list (Python dict lookup; the
dicts built by the source have unique keys). -/
def assocFind {α : Type} (m : List (String × α)) (k : String) : Option α :=
  (m.find? (fun p => p.1 == k)).map (fun p => p.2)

/-- Lookup as latest_dates.get(symbol): absent key and a stored null date both give
None (database_manager stores None when the date column is null). -/
def lookupD (m : List (String × Option Int)) (k : String) : Option Int :=
  match assocFind m k with
  | none => none
  | some v => v

/-! ### Entity Store read model (database_manager.py) -/

/-- Source database_manager.py lines 28-42: get_latest_price_dates (and the
identical lines 82-99: get_latest_ticker_info_dates).  `dbResult` is the
outcome of the sqlite query: `none` means the query raised, in which case
the except branch returns the still-empty accumulator dictionary; otherwise
the rows (symbol, max date or null) become the returned map. -/
def get_latest_price_dates (dbResult : Option (List (String × Option Int))) :
    List (String × Option Int) :=
  match dbResult with
  | none => []
  | some rows => rows

/-! ### update_tiker_info (data_collector.py lines 246-390) -/

/-- Environment of an update_tiker_info run: the external collaborators.
`provider c batch` is the outcome of the c-th yfinance access of the run
(`none` = the access raised; get_stock_info catches this and returns an
empty dict); a `some` result maps formatted symbols to the field count of
their info dict (the only observation the code makes of an info dict,
besides passing it to the store).  `insertOk s n` is the boolean returned
by DatabaseManager.insert_ticker_info (which catches its own exceptions).
`latest` is the map returned by get_latest_ticker_info_dates, `today` the
current date in days.  `summaryRaises` injects an exception at the final
summary logging (lines 383-384), the only statement of the outer try that
runs after results are recorded and is not itself wrapped in a handler;
it models any exception reaching the top-level handler of lines 386-388. -/
structure InfoEnv where
  provider : Nat → List String → Option (List (String × Nat))
  insertOk : String → Nat → Bool
  latest : List (String × Option Int)
  today : Int
  summaryRaises : Bool

/-- Source data_collector.py lines 408-418: get_stock_info.  A raising yfinance
access is caught and the empty dict returned. -/
def getStockInfoM (env : InfoEnv) (c : Nat) (batch : List String) :
    List (String × Nat) :=
  match env.provider c batch with
  | none => []
  | some m => m

/-- Source data_collector.py lines 264-278: the per-symbol staleness test of
update_tiker_info.  Due when no stored date, or the stored date is older
than today minus the hash-spread interval. -/
def dueInfoB (env : InfoEnv) (s : String) : Bool :=
  match lookupD env.latest s with
  | none => true
  | some d => d < env.today - (get_ticker_info_update_interval_days s : Int)

/-- Source data_collector.py lines 261-278: the filtering loop.  Fresh symbols are
recorded True immediately; due symbols are appended to symbols_to_update. -/
def classifyInfo (env : InfoEnv) (symbols : List String) :
    ResMap × List String :=
  symbols.foldl
    (fun acc s =>
      if dueInfoB env s then (acc.1, acc.2 ++ [s])
      else (rset acc.1 s true, acc.2))
    ((fun _ => none), [])

/-- Source data_collector.py lines 299-315: the retry loop over one batch.
Runs up to the given number of remaining attempts, stopping at the first
non-empty result; between two failed attempts it sleeps retry_delay = 2
seconds.  Returns the final info_data (empty when every attempt failed),
the advanced call counter, and the event trace. -/
def attemptFetchInfo (env : InfoEnv) (batch : List String) :
    Nat → Nat → List (String × Nat) × Nat × List Ev
  | c, 0 => ([], c, [])
  | c, n + 1 =>
    let d := getStockInfoM env c batch
    if d.isEmpty then
      if n = 0 then ([], c + 1, [Ev.call batch])
      else
        let r := attemptFetchInfo env batch (c + 1) n
        (r.1, r.2.1, Ev.call batch :: Ev.sleepFor 2 :: r.2.2)
    else (d, c + 1, [Ev.call batch])

/-- Source data_collector.py lines 342-368: outcome of the per-symbol extraction
from a fetched info dict.  Absent formatted symbol, or an info dict with
at most 5 fields, is a failure; otherwise the outcome is the boolean
returned by insert_ticker_info. -/
def extractInfoOutcome (env : InfoEnv) (m : List (String × Nat))
    (s : String) : Bool :=
  match assocFind m (format_symbol s) with
  | none => false
  | some n => if 5 < n then env.insertOk s n else false

/-- Source data_collector.py lines 342-368: the per-symbol loop over one batch. -/
def processInfoBatch (env : InfoEnv) (res : ResMap)
    (m : List (String × Nat)) (batch : List String) : ResMap :=
  batch.foldl (fun r s => rset r s (extractInfoOutcome env m s)) res

/-- Source data_collector.py lines 289-381: the batch loop of update_tiker_info.
Slices of 100 symbols; a batch whose three attempts all came back empty
marks its own symbols False, marks every not-yet-recorded remaining symbol
False and stops the run (abort flag true); a successful fetch runs the
per-symbol extraction and, when symbols remain, sleeps 10 seconds before
the next batch.  Structural fuel (any value at least the list length gives
the loop's behaviour); the call counter `c` numbers provider accesses. -/
def runInfoBatches (env : InfoEnv) :
    Nat → Nat → ResMap → List String → ResMap × List Ev × Bool
  | 0, _, res, _ => (res, [], false)
  | fuel + 1, c, res, xs =>
    if xs.isEmpty then (res, [], false)
    else
      let batch := xs.take 100
      let rest := xs.drop 100
      let f := attemptFetchInfo env batch c 3
      if f.1.isEmpty then
        let res1 := markAll res batch false
        let res2 := markMissing res1 rest false
        (res2, f.2.2, true)
      else
        let res1 := processInfoBatch env res f.1 batch
        let tr2 := if rest.isEmpty then f.2.2 else f.2.2 ++ [Ev.sleepFor 10]
        let r := runInfoBatches env fuel f.2.1 res1 rest
        (r.1, tr2 ++ r.2.1, r.2.2)

/-- Source data_collector.py lines 246-390: update_tiker_info.  Returns the
results dictionary, the event trace, and the abort flag.  With
force_update the staleness filter is skipped.  If no symbol is due the
function returns all-True immediately (line 282) without reaching the
batch loop; that early return leaves the function before the summary
logging, so the exception injection does not apply to it. -/
def update_tiker_info (env : InfoEnv) (symbols : List String)
    (force_update : Bool := false) : ResMap × List Ev × Bool :=
  let cl := if force_update then ((fun _ => none : ResMap), symbols)
            else classifyInfo env symbols
  if !force_update && cl.2.isEmpty then (fromkeys symbols true, [], false)
  else
    let r := runInfoBatches env cl.2.length 0 cl.1 cl.2
    if env.summaryRaises then (fromkeys symbols false, r.2.1, r.2.2)
    else r

/-- Outcome formula of an aborted Snapshot run, used to state the abort
escalation property: some batch j of the due list (slices of 100)
exhausted its three attempts empty; its symbols and every later due
symbol are mapped False, later symbols appear in no provider call, fresh
symbols keep True, the earlier batches keep exactly the results of the
batch loop run over just those batches, and every provider call stays
within batches 0..j. -/
def InfoAbortOutcome (env : InfoEnv) (symbols : List String) : Prop :=
  ∃ j c',
    ((((classifyInfo env symbols).2.drop (100 * j)).take 100 ≠ [] ∧
      (attemptFetchInfo env
        (((classifyInfo env symbols).2.drop (100 * j)).take 100) c' 3).1
        = []) ∧
     (∀ s ∈ ((classifyInfo env symbols).2.drop (100 * j)).take 100,
       (update_tiker_info env symbols false).1 s = some false)) ∧
    (∀ s ∈ (classifyInfo env symbols).2.drop (100 * j + 100),
      (update_tiker_info env symbols false).1 s = some false ∧
      ∀ bs ∈ callsOf (update_tiker_info env symbols false).2.1, s ∉ bs) ∧
    (∀ s ∈ symbols, dueInfoB env s = false →
      (update_tiker_info env symbols false).1 s = some true) ∧
    (∀ s ∈ (classifyInfo env symbols).2.take (100 * j),
      (update_tiker_info env symbols false).1 s
        = (runInfoBatches env (100 * j) 0 (classifyInfo env symbols).1
            ((classifyInfo env symbols).2.take (100 * j))).1 s) ∧
    (∀ bs ∈ callsOf (update_tiker_info env symbols false).2.1, ∀ t ∈ bs,
      t ∈ (classifyInfo env symbols).2.take (100 * j + 100))

/-! ### update_tiker_prices (data_collector.py lines 124-244) -/

/-- The observations update_tiker_prices makes of one symbol's slice of the
downloaded price frame: its column names and, per row, the set of columns
holding a non-null value (only emptiness, column presence and dropna
survival are inspected by the code). -/
structure SeriesPayload where
  cols : List String
  rows : List (List String)
deriving DecidableEq, Repr

/-- Source data_collector.py line 200: the five required OHLCV columns. -/
def requiredColumns : List String := ["open", "high", "low", "close", "volume"]

/-- Environment of an update_tiker_prices run.  `provider c batch` is the
outcome of the c-th yf.download of the run: `none` models a raising or
None-returning download (get_stock_prices catches and returns an empty
frame); a `some` result is the frame as an association from formatted
symbols to their payload slice (the MultiIndex cross-section of lines
183-188).  `insertOk s p` is the boolean returned by
DatabaseManager.insert_stock_prices for the selected data.  `latest` is
the map returned by get_latest_price_dates; `summaryRaises` as in
InfoEnv (lines 237-238 and the handler of lines 240-242). -/
structure PricesEnv where
  provider : Nat → List String → Option (List (String × SeriesPayload))
  insertOk : String → SeriesPayload → Bool
  latest : List (String × Option Int)
  today : Int
  summaryRaises : Bool

/-- Source data_collector.py lines 392-406: get_stock_prices.  A raising or
None-returning download becomes the empty frame. -/
def getStockPricesM (env : PricesEnv) (c : Nat) (batch : List String) :
    List (String × SeriesPayload) :=
  match env.provider c batch with
  | none => []
  | some m => m

/-- Source data_collector.py lines 139-150: the per-symbol staleness test of
update_tiker_prices.  Due when no stored date, or the stored date is
strictly before yesterday. -/
def duePricesB (env : PricesEnv) (s : String) : Bool :=
  match lookupD env.latest s with
  | none => true
  | some d => d < env.today - 1

/-- Source data_collector.py lines 137-150: the filtering loop of
update_tiker_prices. -/
def classifyPrices (env : PricesEnv) (symbols : List String) :
    ResMap × List String :=
  symbols.foldl
    (fun acc s =>
      if duePricesB env s then (acc.1, acc.2 ++ [s])
      else (rset acc.1 s true, acc.2))
    ((fun _ => none), [])

/-- Source data_collector.py lines 178-225: outcome of the per-symbol extraction
from a downloaded price frame.  Absent symbol slice (the .xs KeyError is
caught by the per-symbol handler), an empty slice, a missing required
column after lower-casing, or emptiness after dropping rows with nulls in
the required columns, are failures; otherwise the outcome is the boolean
returned by insert_stock_prices on the selected data. -/
def extractPricesOutcome (env : PricesEnv)
    (frame : List (String × SeriesPayload)) (s : String) : Bool :=
  match assocFind frame (format_symbol s) with
  | none => false
  | some p =>
    if p.rows.isEmpty then false
    else
      let cols := p.cols.map lowerStr
      if requiredColumns.all (fun c => cols.contains c) then
        let kept := p.rows.filter
          (fun r => requiredColumns.all (fun c => (r.map lowerStr).contains c))
        if kept.isEmpty then false
        else env.insertOk s { cols := requiredColumns, rows := kept }
      else false

/-- Source data_collector.py lines 178-225: the per-symbol loop over one batch. -/
def processPricesBatch (env : PricesEnv) (res : ResMap)
    (frame : List (String × SeriesPayload)) (batch : List String) : ResMap :=
  batch.foldl (fun r s => rset r s (extractPricesOutcome env frame s)) res

/-- Source data_collector.py lines 161-235: the batch loop of update_tiker_prices.
Slices of 1000 symbols; exactly one provider call per batch (no retry
loop here).  An empty frame marks the batch's symbols False and continues
with the next batch, skipping the inter-batch sleep (the continue of line
175); a non-empty frame runs the per-symbol extraction and, when symbols
remain, sleeps 2 seconds. -/
def runPriceBatches (env : PricesEnv) :
    Nat → Nat → ResMap → List String → ResMap × List Ev
  | 0, _, res, _ => (res, [])
  | fuel + 1, c, res, xs =>
    if xs.isEmpty then (res, [])
    else
      let batch := xs.take 1000
      let rest := xs.drop 1000
      let frame := getStockPricesM env c batch
      if frame.isEmpty then
        let res1 := markAll res batch false
        let r := runPriceBatches env fuel (c + 1) res1 rest
        (r.1, Ev.call batch :: r.2)
      else
        let res1 := processPricesBatch env res frame batch
        let tr2 := if rest.isEmpty then [Ev.call batch]
                   else [Ev.call batch, Ev.sleepFor 2]
        let r := runPriceBatches env fuel (c + 1) res1 rest
        (r.1, tr2 ++ r.2)

/-- Source data_collector.py lines 124-244: update_tiker_prices.  Returns the
results dictionary and the event trace.  If every symbol already holds a
date of yesterday or later the function returns all-True (line 154)
without any provider call. -/
def update_tiker_prices (env : PricesEnv) (symbols : List String) :
    ResMap × List Ev :=
  let cl := classifyPrices env symbols
  if cl.2.isEmpty then (fromkeys symbols true, [])
  else
    let r := runPriceBatches env cl.2.length 0 cl.1 cl.2
    if env.summaryRaises then (fromkeys symbols false, r.2) else r

/-! ### insert_stock_prices (database_manager.py lines 146-168) -/

/-- One row of the stock_prices table: the symbol column added by the
code, the formatted date taken from the frame index, and the remaining
column values of the row. -/
structure PriceRow where
  symbol : String
  date : String
  vals : List (String × Int)
deriving DecidableEq, Repr

/-- Source database_manager.py lines 146-168: insert_stock_prices.  On the
success path it deletes every stored row of the symbol and appends the
payload's rows tagged with the symbol; `fail` models the except branch
(the connection context manager rolls the transaction back, leaving the
store unchanged, and False is returned). -/
def insert_stock_prices (fail : Bool) (store : List PriceRow)
    (symbol : String) (data : List (String × List (String × Int))) :
    List PriceRow × Bool :=
  if fail then (store, false)
  else
    let newRows := data.map (fun r => PriceRow.mk symbol r.1 r.2)
    ((store.filter (fun row => row.symbol != symbol)) ++ newRows, true)

/-! ### Derived observation helpers and concrete test environments -/

/-- The successive slices of size `size` of a list, fuel-driven with the
same fuel discipline as the batch loops (used to state that the prices
loop performs exactly one provider call per batch). -/
def sliceChunks (size : Nat) : Nat → List String → List (List String)
  | 0, _ => []
  | fuel + 1, xs =>
    if xs.isEmpty then []
    else xs.take size :: sliceChunks size fuel (xs.drop size)

/-- A fully valid per-symbol price payload: the five OHLCV columns and one
row with all of them non-null. -/
def goodPayload : SeriesPayload :=
  { cols := requiredColumns, rows := [requiredColumns] }

/-- Prices environment whose first download returns an empty frame while a
second download would have succeeded; the stored dates are empty so every
symbol is due. -/
def envPricesOnce : PricesEnv :=
  { provider := fun c _ => if c = 0 then some [] else some [("A.T", goodPayload)]
    insertOk := fun _ _ => true
    latest := []
    today := 0
    summaryRaises := false }

/-- Info environment whose first access raises and whose later accesses
return a usable info dict for the formatted symbol A.T. -/
def envInfoRetry : InfoEnv :=
  { provider := fun c _ => if c = 0 then none else some [("A.T", 10)]
    insertOk := fun _ _ => true
    latest := []
    today := 0
    summaryRaises := false }

/-- Info environment whose provider raises on every access. -/
def envInfoDown : InfoEnv :=
  { provider := fun _ _ => none
    insertOk := fun _ _ => true
    latest := []
    today := 0
    summaryRaises := false }

/-- Prices environment whose provider raises on every access. -/
def envPricesDown : PricesEnv :=
  { provider := fun _ _ => none
    insertOk := fun _ _ => true
    latest := []
    today := 0
    summaryRaises := false }

/-- Info environment in which symbol A was refreshed recently (day 10 of
`today` = 20, within every possible hash interval) and everything else is
due; the provider always succeeds with a rich record for A.T and B.T. -/
def envInfoFresh : InfoEnv :=
  { provider := fun _ _ => some [("A.T", 10), ("B.T", 10)]
    insertOk := fun _ _ => true
    latest := [("A", some 10)]
    today := 20
    summaryRaises := false }

/-- Prices environment with stored dates: A yesterday (day -1), B three
days ago (day -3), C today (day 0), relative to today = 0. -/
def envPricesDates : PricesEnv :=
  { provider := fun _ _ => some [("B.T", goodPayload)]
    insertOk := fun _ _ => true
    latest := [("A", some (-1)), ("B", some (-3)), ("C", some 0)]
    today := 0
    summaryRaises := false }

/-- Info environment raising at the final summary logging, with A fresh
(refreshed on day 10 of today = 20) and B due, provider succeeding. -/
def envInfoRaise : InfoEnv :=
  { provider := fun _ _ => some [("A.T", 10), ("B.T", 10)]
    insertOk := fun _ _ => true
    latest := [("A", some 10)]
    today := 20
    summaryRaises := true }

/-- Prices environment raising at the final summary logging, with A fresh
(refreshed today) and B due, provider succeeding. -/
def envPricesRaise : PricesEnv :=
  { provider := fun _ _ => some [("B.T", goodPayload)]
    insertOk := fun _ _ => true
    latest := [("A", some 0)]
    today := 0
    summaryRaises := true }

/-! ### Basic facts and sanity checks -/

/-- Sanity: digest of the empty string matches the published MD5 value. -/
theorem md5Hexdigest_empty :
    md5Hexdigest "" = "d41d8cd98f00b204e9800998ecf8427e" := by decide

/-- Sanity: digest of "abc" matches the published MD5 value. -/
theorem md5Hexdigest_abc :
    md5Hexdigest "abc" = "900150983cd24fb0d6963f7d28e17f72" := by decide

/-- Sanity: digest of a ticker symbol from the repository's own test list. -/
theorem md5Hexdigest_7203 :
    md5Hexdigest "7203" = "118921efba23fc329e6560b27861f0c2" := by decide

/-! ### Result-map fold lemmas -/

theorem rset_self (m : ResMap) (k : String) (b : Bool) :
    rset m k b k = some b := by
  simp [rset]

theorem rset_ne (m : ResMap) {k s : String} (b : Bool) (h : s ≠ k) :
    rset m k b s = m s := by
  simp [rset, h]

theorem foldl_rset_not_mem (f : String → Bool) :
    ∀ (l : List String) (m : ResMap) (s : String), s ∉ l →
      (l.foldl (fun r t => rset r t (f t)) m) s = m s := by
  intro l
  induction l with
  | nil => intro m s _; rfl
  | cons t ts ih =>
    intro m s hs
    simp only [List.foldl_cons]
    rw [ih _ _ (fun h => hs (List.mem_cons_of_mem _ h))]
    exact rset_ne _ _ (fun h => hs (h ▸ List.mem_cons_self _ _))

theorem foldl_rset_mem (f : String → Bool) :
    ∀ (l : List String) (m : ResMap) (s : String), s ∈ l →
      (l.foldl (fun r t => rset r t (f t)) m) s = some (f s) := by
  intro l
  induction l with
  | nil => intro m s hs; cases hs
  | cons t ts ih =>
    intro m s hs
    simp only [List.foldl_cons]
    by_cases hmem : s ∈ ts
    · exact ih _ _ hmem
    · have hst : s = t := by
        rcases List.mem_cons.mp hs with h | h
        · exact h
        · exact absurd h hmem
      rw [foldl_rset_not_mem f ts _ s hmem]
      subst hst
      exact rset_self _ _ _

theorem markAll_not_mem (m : ResMap) (l : List String) (b : Bool)
    (s : String) (h : s ∉ l) : markAll m l b s = m s :=
  foldl_rset_not_mem (fun _ => b) l m s h

theorem markAll_mem (m : ResMap) (l : List String) (b : Bool)
    (s : String) (h : s ∈ l) : markAll m l b s = some b :=
  foldl_rset_mem (fun _ => b) l m s h

theorem markMissing_not_mem :
    ∀ (l : List String) (m : ResMap) (b : Bool) (s : String), s ∉ l →
      markMissing m l b s = m s := by
  intro l
  induction l with
  | nil => intro m b s _; rfl
  | cons t ts ih =>
    intro m b s hs
    have hne : s ≠ t := fun h => hs (h ▸ List.mem_cons_self _ _)
    have hts : s ∉ ts := fun h => hs (List.mem_cons_of_mem _ h)
    have hstep : markMissing m (t :: ts) b
        = markMissing (if (m t).isNone then rset m t b else m) ts b := rfl
    rw [hstep, ih _ _ _ hts]
    by_cases h : (m t).isNone
    · simp [h, rset_ne _ _ hne]
    · simp [h]

theorem markMissing_some :
    ∀ (l : List String) (m : ResMap) (b : Bool) (s : String) (v : Bool),
      m s = some v → markMissing m l b s = some v := by
  intro l
  induction l with
  | nil => intro m b s v hv; exact hv
  | cons t ts ih =>
    intro m b s v hv
    have hstep : markMissing m (t :: ts) b
        = markMissing (if (m t).isNone then rset m t b else m) ts b := rfl
    rw [hstep]
    apply ih
    by_cases hst : s = t
    · subst hst
      simp [hv]
    · by_cases h : (m t).isNone <;> simp [h, rset_ne _ _ hst, hv]

theorem markMissing_mem :
    ∀ (l : List String) (m : ResMap) (b : Bool) (s : String), s ∈ l →
      markMissing m l b s = if (m s).isNone then some b else m s := by
  intro l
  induction l with
  | nil => intro m b s hs; cases hs
  | cons t ts ih =>
    intro m b s hs
    have hstep : markMissing m (t :: ts) b
        = markMissing (if (m t).isNone then rset m t b else m) ts b := rfl
    rw [hstep]
    by_cases hst : s = t
    · subst hst
      by_cases h : (m s).isNone
      · rw [if_pos h, if_pos h]
        exact markMissing_some ts (rset m s b) b s b (rset_self m s b)
      · rw [if_neg h, if_neg h]
        by_cases hmem : s ∈ ts
        · rw [ih _ _ _ hmem, if_neg h]
        · exact markMissing_not_mem ts m b s hmem
    · have hm' : (if (m t).isNone then rset m t b else m) s = m s := by
        by_cases h : (m t).isNone <;> simp [h, rset_ne _ _ hst]
      have hmem : s ∈ ts := by
        rcases List.mem_cons.mp hs with h | h
        · exact absurd h hst
        · exact h
      rw [ih _ _ _ hmem, hm']

theorem processInfoBatch_not_mem (env : InfoEnv) (res : ResMap)
    (m : List (String × Nat)) (batch : List String) (s : String)
    (h : s ∉ batch) : processInfoBatch env res m batch s = res s :=
  foldl_rset_not_mem (extractInfoOutcome env m) batch res s h

theorem processInfoBatch_mem (env : InfoEnv) (res : ResMap)
    (m : List (String × Nat)) (batch : List String) (s : String)
    (h : s ∈ batch) :
    processInfoBatch env res m batch s = some (extractInfoOutcome env m s) :=
  foldl_rset_mem (extractInfoOutcome env m) batch res s h

theorem processPricesBatch_not_mem (env : PricesEnv) (res : ResMap)
    (frame : List (String × SeriesPayload)) (batch : List String) (s : String)
    (h : s ∉ batch) : processPricesBatch env res frame batch s = res s :=
  foldl_rset_not_mem (extractPricesOutcome env frame) batch res s h

theorem processPricesBatch_mem (env : PricesEnv) (res : ResMap)
    (frame : List (String × SeriesPayload)) (batch : List String) (s : String)
    (h : s ∈ batch) :
    processPricesBatch env res frame batch s
      = some (extractPricesOutcome env frame s) :=
  foldl_rset_mem (extractPricesOutcome env frame) batch res s h

/-! ### Staleness-classification fold lemmas -/

theorem classify_foldl_snd (p : String → Bool) :
    ∀ (xs : List String) (acc : ResMap × List String),
      (xs.foldl (fun acc s =>
          if p s then (acc.1, acc.2 ++ [s])
          else (rset acc.1 s true, acc.2)) acc).2
        = acc.2 ++ xs.filter p := by
  intro xs
  induction xs with
  | nil => intro acc; simp
  | cons t ts ih =>
    intro acc
    simp only [List.foldl_cons, List.filter_cons]
    by_cases h : p t
    · simp [h, ih]
    · simp [h, ih]

theorem classify_foldl_fst (p : String → Bool) :
    ∀ (xs : List String) (acc : ResMap × List String) (s : String),
      (xs.foldl (fun acc s =>
          if p s then (acc.1, acc.2 ++ [s])
          else (rset acc.1 s true, acc.2)) acc).1 s
        = if s ∈ xs ∧ p s = false then some true else acc.1 s := by
  intro xs
  induction xs with
  | nil => intro acc s; simp
  | cons t ts ih =>
    intro acc s
    simp only [List.foldl_cons]
    rw [ih]
    by_cases hst : s = t
    · subst hst
      by_cases hp : p s
      · simp [hp]
      · by_cases hmem : s ∈ ts <;> simp [hp, hmem, rset_self]
    · by_cases hp : p t
      · simp only [hp, if_true]
        by_cases hmem : s ∈ ts
        · simp [hmem]
        · simp [hmem, hst, List.mem_cons]
      · simp only [hp, if_false]
        by_cases hmem : s ∈ ts
        · simp [hmem, rset_ne _ _ hst]
        · simp [hmem, hst, List.mem_cons, rset_ne _ _ hst]

theorem classifyInfo_snd (env : InfoEnv) (symbols : List String) :
    (classifyInfo env symbols).2 = symbols.filter (fun s => dueInfoB env s) :=
  classify_foldl_snd (fun s => dueInfoB env s) symbols _

theorem classifyInfo_fst (env : InfoEnv) (symbols : List String) (s : String) :
    (classifyInfo env symbols).1 s
      = if s ∈ symbols ∧ dueInfoB env s = false then some true else none :=
  classify_foldl_fst (fun s => dueInfoB env s) symbols _ s

theorem classifyPrices_snd (env : PricesEnv) (symbols : List String) :
    (classifyPrices env symbols).2
      = symbols.filter (fun s => duePricesB env s) :=
  classify_foldl_snd (fun s => duePricesB env s) symbols _

theorem classifyPrices_fst (env : PricesEnv) (symbols : List String)
    (s : String) :
    (classifyPrices env symbols).1 s
      = if s ∈ symbols ∧ duePricesB env s = false then some true else none :=
  classify_foldl_fst (fun s => duePricesB env s) symbols _ s

/-! ### Trace lemmas -/

theorem callsOf_nil : callsOf [] = [] := rfl

theorem callsOf_append (a b : List Ev) :
    callsOf (a ++ b) = callsOf a ++ callsOf b := by
  simp [callsOf]

theorem callsOf_call (l : List String) (tr : List Ev) :
    callsOf (Ev.call l :: tr) = l :: callsOf tr := by
  simp [callsOf, List.filterMap_cons]

theorem callsOf_sleep (n : Nat) (tr : List Ev) :
    callsOf (Ev.sleepFor n :: tr) = callsOf tr := by
  simp [callsOf, List.filterMap_cons]

/-! ### Retry-loop lemmas (attemptFetchInfo) -/

theorem attemptFetchInfo_calls (env : InfoEnv) (batch : List String) :
    ∀ (n c : Nat) (bs : List String),
      bs ∈ callsOf (attemptFetchInfo env batch c n).2.2 → bs = batch := by
  intro n
  induction n with
  | zero => intro c bs h; cases h
  | succ k ih =>
    intro c bs h
    by_cases hd : (getStockInfoM env c batch).isEmpty
    · by_cases hk : k = 0
      · subst hk
        simp only [attemptFetchInfo, hd, if_true, callsOf_call] at h
        rcases List.mem_cons.mp h with h | h
        · exact h
        · cases h
      · simp only [attemptFetchInfo, hd, if_true, if_neg hk, callsOf_call,
          callsOf_sleep] at h
        rcases List.mem_cons.mp h with h | h
        · exact h
        · exact ih _ _ h
    · simp only [attemptFetchInfo, hd, if_false, Bool.false_eq_true,
        callsOf_call] at h
      rcases List.mem_cons.mp h with h | h
      · exact h
      · cases h

theorem attemptFetchInfo_first_ok (env : InfoEnv) (batch : List String)
    (c n : Nat) (h : (getStockInfoM env c batch).isEmpty = false) :
    attemptFetchInfo env batch c (n + 1)
      = (getStockInfoM env c batch, c + 1, [Ev.call batch]) := by
  simp [attemptFetchInfo, h]

theorem attemptFetchInfo_second_ok (env : InfoEnv) (batch : List String)
    (c : Nat) (h0 : (getStockInfoM env c batch).isEmpty = true)
    (h1 : (getStockInfoM env (c + 1) batch).isEmpty = false) :
    attemptFetchInfo env batch c 3
      = (getStockInfoM env (c + 1) batch, c + 2,
         [Ev.call batch, Ev.sleepFor 2, Ev.call batch]) := by
  show attemptFetchInfo env batch c (2 + 1) = _
  simp [attemptFetchInfo, h0, h1]

theorem attemptFetchInfo_all_empty (env : InfoEnv) (batch : List String)
    (c : Nat) (h0 : (getStockInfoM env c batch).isEmpty = true)
    (h1 : (getStockInfoM env (c + 1) batch).isEmpty = true)
    (h2 : (getStockInfoM env (c + 2) batch).isEmpty = true) :
    attemptFetchInfo env batch c 3
      = ([], c + 3,
         [Ev.call batch, Ev.sleepFor 2, Ev.call batch, Ev.sleepFor 2,
          Ev.call batch]) := by
  show attemptFetchInfo env batch c (2 + 1) = _
  simp [attemptFetchInfo, h0, h1, h2]

theorem attemptFetchInfo_down (env : InfoEnv) (batch : List String)
    (hp : ∀ c' b, env.provider c' b = none) :
    ∀ (n c : Nat), (attemptFetchInfo env batch c n).1 = [] := by
  intro n
  induction n with
  | zero => intro c; rfl
  | succ k ih =>
    intro c
    have hd : (getStockInfoM env c batch).isEmpty = true := by
      simp [getStockInfoM, hp]
    by_cases hk : k = 0
    · subst hk; simp [attemptFetchInfo, hd]
    · simp [attemptFetchInfo, hd, hk, ih]

/-! ### Batch-loop lemmas (runInfoBatches) -/

theorem runInfoBatches_nil (env : InfoEnv) (fuel c : Nat) (res : ResMap) :
    runInfoBatches env fuel c res [] = (res, [], false) := by
  cases fuel <;> simp [runInfoBatches]

theorem runInfoBatches_abort_step (env : InfoEnv) (fuel c : Nat)
    (res : ResMap) (xs : List String) (hxs : xs.isEmpty = false)
    (hf : (attemptFetchInfo env (xs.take 100) c 3).1.isEmpty = true) :
    runInfoBatches env (fuel + 1) c res xs
      = (markMissing (markAll res (xs.take 100) false) (xs.drop 100) false,
         (attemptFetchInfo env (xs.take 100) c 3).2.2, true) := by
  simp [runInfoBatches, hxs, hf]

theorem runInfoBatches_ok_step (env : InfoEnv) (fuel c : Nat)
    (res : ResMap) (xs : List String) (hxs : xs.isEmpty = false)
    (hf : (attemptFetchInfo env (xs.take 100) c 3).1.isEmpty = false) :
    runInfoBatches env (fuel + 1) c res xs
      = ((runInfoBatches env fuel (attemptFetchInfo env (xs.take 100) c 3).2.1
            (processInfoBatch env res (attemptFetchInfo env (xs.take 100) c 3).1
              (xs.take 100)) (xs.drop 100)).1,
         (if (xs.drop 100).isEmpty
            then (attemptFetchInfo env (xs.take 100) c 3).2.2
            else (attemptFetchInfo env (xs.take 100) c 3).2.2
              ++ [Ev.sleepFor 10])
           ++ (runInfoBatches env fuel
                (attemptFetchInfo env (xs.take 100) c 3).2.1
                (processInfoBatch env res
                  (attemptFetchInfo env (xs.take 100) c 3).1 (xs.take 100))
                (xs.drop 100)).2.1,
         (runInfoBatches env fuel (attemptFetchInfo env (xs.take 100) c 3).2.1
            (processInfoBatch env res (attemptFetchInfo env (xs.take 100) c 3).1
              (xs.take 100)) (xs.drop 100)).2.2) := by
  simp [runInfoBatches, hxs, hf]

theorem runInfoBatches_not_mem (env : InfoEnv) :
    ∀ (fuel c : Nat) (res : ResMap) (xs : List String) (s : String),
      s ∉ xs → (runInfoBatches env fuel c res xs).1 s = res s := by
  intro fuel
  induction fuel with
  | zero => intro c res xs s _; rfl
  | succ k ih =>
    intro c res xs s hs
    cases xs with
    | nil => rw [runInfoBatches_nil]
    | cons x xt =>
      have hxe : (x :: xt).isEmpty = false := rfl
      have hstake : s ∉ (x :: xt).take 100 :=
        fun h => hs (List.take_subset _ _ h)
      have hsdrop : s ∉ (x :: xt).drop 100 :=
        fun h => hs (List.drop_subset _ _ h)
      cases hf : (attemptFetchInfo env ((x :: xt).take 100) c 3).1.isEmpty with
      | true =>
        rw [runInfoBatches_abort_step env k c res _ hxe hf]
        show markMissing (markAll res _ false) _ false s = res s
        rw [markMissing_not_mem _ _ _ _ hsdrop,
          markAll_not_mem _ _ _ _ hstake]
      | false =>
        rw [runInfoBatches_ok_step env k c res _ hxe hf]
        show (runInfoBatches env k _ _ _).1 s = res s
        rw [ih _ _ _ _ hsdrop, processInfoBatch_not_mem _ _ _ _ _ hstake]

theorem runInfoBatches_covers (env : InfoEnv) :
    ∀ (fuel c : Nat) (res : ResMap) (xs : List String) (s : String),
      xs.length ≤ fuel → s ∈ xs →
      ∃ b, (runInfoBatches env fuel c res xs).1 s = some b := by
  intro fuel
  induction fuel with
  | zero =>
    intro c res xs s hlen hs
    have : xs = [] := List.length_eq_zero.mp (Nat.le_zero.mp hlen)
    subst this; cases hs
  | succ k ih =>
    intro c res xs s hlen hs
    cases xs with
    | nil => cases hs
    | cons x xt =>
      have hxe : (x :: xt).isEmpty = false := rfl
      have hsplit : s ∈ (x :: xt).take 100 ++ (x :: xt).drop 100 := by
        rw [List.take_append_drop]; exact hs
      cases hf : (attemptFetchInfo env ((x :: xt).take 100) c 3).1.isEmpty with
      | true =>
        rw [runInfoBatches_abort_step env k c res _ hxe hf]
        show ∃ b, markMissing (markAll res _ false) _ false s = some b
        rcases List.mem_append.mp hsplit with h | h
        · exact ⟨false, markMissing_some _ _ _ _ _ (markAll_mem _ _ _ _ h)⟩
        · rw [markMissing_mem _ _ _ _ h]
          cases hms : (markAll res ((x :: xt).take 100) false) s with
          | none => exact ⟨false, by simp⟩
          | some v => exact ⟨v, by simp⟩
      | false =>
        rw [runInfoBatches_ok_step env k c res _ hxe hf]
        show ∃ b, (runInfoBatches env k _ _ _).1 s = some b
        by_cases hmem : s ∈ (x :: xt).drop 100
        · apply ih
          · rw [List.length_drop]
            simp only [List.length_cons] at hlen ⊢
            omega
          · exact hmem
        · rw [runInfoBatches_not_mem env _ _ _ _ _ hmem]
          have hb : s ∈ (x :: xt).take 100 := by
            rcases List.mem_append.mp hsplit with h | h
            · exact h
            · exact absurd h hmem
          exact ⟨_, processInfoBatch_mem _ _ _ _ _ hb⟩

theorem runInfoBatches_calls (env : InfoEnv) :
    ∀ (fuel c : Nat) (res : ResMap) (xs : List String) (bs : List String),
      bs ∈ callsOf (runInfoBatches env fuel c res xs).2.1 →
      ∀ t ∈ bs, t ∈ xs := by
  intro fuel
  induction fuel with
  | zero => intro c res xs bs h; cases h
  | succ k ih =>
    intro c res xs bs h t ht
    cases xs with
    | nil => rw [runInfoBatches_nil] at h; cases h
    | cons x xt =>
      have hxe : (x :: xt).isEmpty = false := rfl
      cases hf : (attemptFetchInfo env ((x :: xt).take 100) c 3).1.isEmpty with
      | true =>
        rw [runInfoBatches_abort_step env k c res _ hxe hf] at h
        have : bs = (x :: xt).take 100 := attemptFetchInfo_calls env _ _ _ _ h
        subst this
        exact List.take_subset _ _ ht
      | false =>
        rw [runInfoBatches_ok_step env k c res _ hxe hf] at h
        rw [show ((if ((x :: xt).drop 100).isEmpty
              then (attemptFetchInfo env ((x :: xt).take 100) c 3).2.2
              else (attemptFetchInfo env ((x :: xt).take 100) c 3).2.2
                ++ [Ev.sleepFor 10])
             ++ (runInfoBatches env k
                  (attemptFetchInfo env ((x :: xt).take 100) c 3).2.1
                  (processInfoBatch env res
                    (attemptFetchInfo env ((x :: xt).take 100) c 3).1
                    ((x :: xt).take 100)) ((x :: xt).drop 100)).2.1,
             (runInfoBatches env k
                (attemptFetchInfo env ((x :: xt).take 100) c 3).2.1
                (processInfoBatch env res
                  (attemptFetchInfo env ((x :: xt).take 100) c 3).1
                  ((x :: xt).take 100)) ((x :: xt).drop 100)).2.2).1
            = (if ((x :: xt).drop 100).isEmpty
                then (attemptFetchInfo env ((x :: xt).take 100) c 3).2.2
                else (attemptFetchInfo env ((x :: xt).take 100) c 3).2.2
                  ++ [Ev.sleepFor 10])
              ++ (runInfoBatches env k
                   (attemptFetchInfo env ((x :: xt).take 100) c 3).2.1
                   (processInfoBatch env res
                     (attemptFetchInfo env ((x :: xt).take 100) c 3).1
                     ((x :: xt).take 100)) ((x :: xt).drop 100)).2.1 from rfl]
          at h
        rw [callsOf_append] at h
        rcases List.mem_append.mp h with h | h
        · have hbs : bs = (x :: xt).take 100 := by
            by_cases hre : ((x :: xt).drop 100).isEmpty
            · rw [if_pos hre] at h
              exact attemptFetchInfo_calls env _ _ _ _ h
            · rw [if_neg hre, callsOf_append] at h
              rcases List.mem_append.mp h with h | h
              · exact attemptFetchInfo_calls env _ _ _ _ h
              · simp [callsOf] at h
          subst hbs
          exact List.take_subset _ _ ht
        · exact List.drop_subset _ _ (ih _ _ _ _ h t ht)

theorem runInfoBatches_fuel (env : InfoEnv) :
    ∀ (f₁ f₂ c : Nat) (res : ResMap) (xs : List String),
      xs.length ≤ f₁ → xs.length ≤ f₂ →
      runInfoBatches env f₁ c res xs = runInfoBatches env f₂ c res xs := by
  intro f₁
  induction f₁ with
  | zero =>
    intro f₂ c res xs h1 _
    have : xs = [] := List.length_eq_zero.mp (Nat.le_zero.mp h1)
    subst this
    rw [runInfoBatches_nil, runInfoBatches_nil]
  | succ k ih =>
    intro f₂ c res xs h1 h2
    cases xs with
    | nil => rw [runInfoBatches_nil, runInfoBatches_nil]
    | cons x xt =>
      cases f₂ with
      | zero => simp [List.length_cons] at h2
      | succ k₂ =>
        have hxe : (x :: xt).isEmpty = false := rfl
        have hl1 : ((x :: xt).drop 100).length ≤ k := by
          rw [List.length_drop]
          simp only [List.length_cons] at h1 ⊢
          omega
        have hl2 : ((x :: xt).drop 100).length ≤ k₂ := by
          rw [List.length_drop]
          simp only [List.length_cons] at h2 ⊢
          omega
        cases hf : (attemptFetchInfo env ((x :: xt).take 100) c 3).1.isEmpty with
        | true =>
          rw [runInfoBatches_abort_step env k c res _ hxe hf,
            runInfoBatches_abort_step env k₂ c res _ hxe hf]
        | false =>
          rw [runInfoBatches_ok_step env k c res _ hxe hf,
            runInfoBatches_ok_step env k₂ c res _ hxe hf,
            ih k₂ _ _ _ hl1 hl2]

theorem runInfoBatches_down (env : InfoEnv)
    (hp : ∀ c' b, env.provider c' b = none) (fuel c : Nat) (res : ResMap)
    (xs : List String) (s : String) (hs : s ∈ xs)
    (hres : ∀ t ∈ xs, res t = none) :
    (runInfoBatches env (fuel + 1) c res xs).1 s = some false := by
  have hxe : xs.isEmpty = false := by cases xs with
    | nil => cases hs
    | cons x xt => rfl
  have hf : (attemptFetchInfo env (xs.take 100) c 3).1.isEmpty = true := by
    rw [attemptFetchInfo_down env _ hp]; rfl
  rw [runInfoBatches_abort_step env fuel c res xs hxe hf]
  show markMissing (markAll res _ false) _ false s = some false
  have hsplit : s ∈ xs.take 100 ++ xs.drop 100 := by
    rw [List.take_append_drop]; exact hs
  rcases List.mem_append.mp hsplit with h | h
  · exact markMissing_some _ _ _ _ _ (markAll_mem _ _ _ _ h)
  · rw [markMissing_mem _ _ _ _ h]
    by_cases hb : s ∈ xs.take 100
    · rw [markAll_mem _ _ _ _ hb]
      rfl
    · rw [markAll_not_mem _ _ _ _ hb, hres s hs]
      rfl

theorem runInfoBatches_down_ab (env : InfoEnv)
    (hp : ∀ c' b, env.provider c' b = none) (fuel c : Nat) (res : ResMap)
    (xs : List String) (hxe : xs.isEmpty = false) :
    (runInfoBatches env (fuel + 1) c res xs).2.2 = true := by
  have hf : (attemptFetchInfo env (xs.take 100) c 3).1.isEmpty = true := by
    rw [attemptFetchInfo_down env _ hp]; rfl
  rw [runInfoBatches_abort_step env fuel c res xs hxe hf]

/-! ### Batch-loop lemmas (runPriceBatches) -/

theorem runPriceBatches_nil (env : PricesEnv) (fuel c : Nat) (res : ResMap) :
    runPriceBatches env fuel c res [] = (res, []) := by
  cases fuel <;> simp [runPriceBatches]

theorem runPriceBatches_empty_step (env : PricesEnv) (fuel c : Nat)
    (res : ResMap) (xs : List String) (hxs : xs.isEmpty = false)
    (hf : (getStockPricesM env c (xs.take 1000)).isEmpty = true) :
    runPriceBatches env (fuel + 1) c res xs
      = ((runPriceBatches env fuel (c + 1) (markAll res (xs.take 1000) false)
            (xs.drop 1000)).1,
         Ev.call (xs.take 1000)
           :: (runPriceBatches env fuel (c + 1)
                (markAll res (xs.take 1000) false) (xs.drop 1000)).2) := by
  simp [runPriceBatches, hxs, hf]

theorem runPriceBatches_ok_step (env : PricesEnv) (fuel c : Nat)
    (res : ResMap) (xs : List String) (hxs : xs.isEmpty = false)
    (hf : (getStockPricesM env c (xs.take 1000)).isEmpty = false) :
    runPriceBatches env (fuel + 1) c res xs
      = ((runPriceBatches env fuel (c + 1)
            (processPricesBatch env res (getStockPricesM env c (xs.take 1000))
              (xs.take 1000)) (xs.drop 1000)).1,
         (if (xs.drop 1000).isEmpty then [Ev.call (xs.take 1000)]
          else [Ev.call (xs.take 1000), Ev.sleepFor 2])
           ++ (runPriceBatches env fuel (c + 1)
                (processPricesBatch env res
                  (getStockPricesM env c (xs.take 1000)) (xs.take 1000))
                (xs.drop 1000)).2) := by
  simp [runPriceBatches, hxs, hf]

theorem runPriceBatches_not_mem (env : PricesEnv) :
    ∀ (fuel c : Nat) (res : ResMap) (xs : List String) (s : String),
      s ∉ xs → (runPriceBatches env fuel c res xs).1 s = res s := by
  intro fuel
  induction fuel with
  | zero => intro c res xs s _; rfl
  | succ k ih =>
    intro c res xs s hs
    cases xs with
    | nil => rw [runPriceBatches_nil]
    | cons x xt =>
      have hxe : (x :: xt).isEmpty = false := rfl
      have hstake : s ∉ (x :: xt).take 1000 :=
        fun h => hs (List.take_subset _ _ h)
      have hsdrop : s ∉ (x :: xt).drop 1000 :=
        fun h => hs (List.drop_subset _ _ h)
      cases hf : (getStockPricesM env c ((x :: xt).take 1000)).isEmpty with
      | true =>
        rw [runPriceBatches_empty_step env k c res _ hxe hf]
        show (runPriceBatches env k _ _ _).1 s = res s
        rw [ih _ _ _ _ hsdrop, markAll_not_mem _ _ _ _ hstake]
      | false =>
        rw [runPriceBatches_ok_step env k c res _ hxe hf]
        show (runPriceBatches env k _ _ _).1 s = res s
        rw [ih _ _ _ _ hsdrop, processPricesBatch_not_mem _ _ _ _ _ hstake]

theorem runPriceBatches_covers (env : PricesEnv) :
    ∀ (fuel c : Nat) (res : ResMap) (xs : List String) (s : String),
      xs.length ≤ fuel → s ∈ xs →
      ∃ b, (runPriceBatches env fuel c res xs).1 s = some b := by
  intro fuel
  induction fuel with
  | zero =>
    intro c res xs s hlen hs
    have : xs = [] := List.length_eq_zero.mp (Nat.le_zero.mp hlen)
    subst this; cases hs
  | succ k ih =>
    intro c res xs s hlen hs
    cases xs with
    | nil => cases hs
    | cons x xt =>
      have hxe : (x :: xt).isEmpty = false := rfl
      have hsplit : s ∈ (x :: xt).take 1000 ++ (x :: xt).drop 1000 := by
        rw [List.take_append_drop]; exact hs
      have hlrest : ((x :: xt).drop 1000).length ≤ k := by
        rw [List.length_drop]
        simp only [List.length_cons] at hlen ⊢
        omega
      cases hf : (getStockPricesM env c ((x :: xt).take 1000)).isEmpty with
      | true =>
        rw [runPriceBatches_empty_step env k c res _ hxe hf]
        show ∃ b, (runPriceBatches env k _ _ _).1 s = some b
        by_cases hmem : s ∈ (x :: xt).drop 1000
        · exact ih _ _ _ _ hlrest hmem
        · rw [runPriceBatches_not_mem env _ _ _ _ _ hmem]
          have hb : s ∈ (x :: xt).take 1000 := by
            rcases List.mem_append.mp hsplit with h | h
            · exact h
            · exact absurd h hmem
          exact ⟨false, markAll_mem _ _ _ _ hb⟩
      | false =>
        rw [runPriceBatches_ok_step env k c res _ hxe hf]
        show ∃ b, (runPriceBatches env k _ _ _).1 s = some b
        by_cases hmem : s ∈ (x :: xt).drop 1000
        · exact ih _ _ _ _ hlrest hmem
        · rw [runPriceBatches_not_mem env _ _ _ _ _ hmem]
          have hb : s ∈ (x :: xt).take 1000 := by
            rcases List.mem_append.mp hsplit with h | h
            · exact h
            · exact absurd h hmem
          exact ⟨_, processPricesBatch_mem _ _ _ _ _ hb⟩

theorem runPriceBatches_down (env : PricesEnv)
    (hp : ∀ c' b, env.provider c' b = none) :
    ∀ (fuel c : Nat) (res : ResMap) (xs : List String) (s : String),
      xs.length ≤ fuel → s ∈ xs →
      (runPriceBatches env fuel c res xs).1 s = some false := by
  intro fuel
  induction fuel with
  | zero =>
    intro c res xs s hlen hs
    have : xs = [] := List.length_eq_zero.mp (Nat.le_zero.mp hlen)
    subst this; cases hs
  | succ k ih =>
    intro c res xs s hlen hs
    cases xs with
    | nil => cases hs
    | cons x xt =>
      have hxe : (x :: xt).isEmpty = false := rfl
      have hf : (getStockPricesM env c ((x :: xt).take 1000)).isEmpty = true := by
        simp [getStockPricesM, hp]
      have hlrest : ((x :: xt).drop 1000).length ≤ k := by
        rw [List.length_drop]
        simp only [List.length_cons] at hlen ⊢
        omega
      rw [runPriceBatches_empty_step env k c res _ hxe hf]
      show (runPriceBatches env k _ _ _).1 s = some false
      by_cases hmem : s ∈ (x :: xt).drop 1000
      · exact ih _ _ _ _ hlrest hmem
      · rw [runPriceBatches_not_mem env _ _ _ _ _ hmem]
        have hb : s ∈ (x :: xt).take 1000 := by
          have hsplit : s ∈ (x :: xt).take 1000 ++ (x :: xt).drop 1000 := by
            rw [List.take_append_drop]; exact hs
          rcases List.mem_append.mp hsplit with h | h
          · exact h
          · exact absurd h hmem
        exact markAll_mem _ _ _ _ hb

theorem runPriceBatches_calls_eq (env : PricesEnv) :
    ∀ (fuel c : Nat) (res : ResMap) (xs : List String),
      callsOf (runPriceBatches env fuel c res xs).2
        = sliceChunks 1000 fuel xs := by
  intro fuel
  induction fuel with
  | zero => intro c res xs; rfl
  | succ k ih =>
    intro c res xs
    cases hxe : xs.isEmpty with
    | true =>
      have : xs = [] := List.isEmpty_iff.mp hxe
      subst this
      rw [runPriceBatches_nil]
      simp [sliceChunks, callsOf]
    | false =>
      cases hf : (getStockPricesM env c (xs.take 1000)).isEmpty with
      | true =>
        rw [runPriceBatches_empty_step env k c res _ hxe hf]
        show callsOf (Ev.call (xs.take 1000) :: _) = _
        rw [callsOf_call, ih]
        simp [sliceChunks, hxe]
      | false =>
        rw [runPriceBatches_ok_step env k c res _ hxe hf]
        show callsOf ((if (xs.drop 1000).isEmpty then [Ev.call (xs.take 1000)]
            else [Ev.call (xs.take 1000), Ev.sleepFor 2]) ++ _) = _
        rw [callsOf_append]
        have hc : callsOf (if (xs.drop 1000).isEmpty
            then [Ev.call (xs.take 1000)]
            else [Ev.call (xs.take 1000), Ev.sleepFor 2])
            = [xs.take 1000] := by
          by_cases hre : (xs.drop 1000).isEmpty
          · rw [if_pos hre]; rfl
          · rw [if_neg hre]; rfl
        rw [hc, ih]
        simp [sliceChunks, hxe]

theorem sliceChunks_subset (size : Nat) :
    ∀ (fuel : Nat) (xs bs : List String), bs ∈ sliceChunks size fuel xs →
      ∀ t ∈ bs, t ∈ xs := by
  intro fuel
  induction fuel with
  | zero => intro xs bs h; cases h
  | succ k ih =>
    intro xs bs h t ht
    by_cases hxe : xs.isEmpty
    · simp [sliceChunks, hxe] at h
    · simp only [sliceChunks, hxe, if_false, Bool.false_eq_true] at h
      rcases List.mem_cons.mp h with h | h
      · subst h; exact List.take_subset _ _ ht
      · exact List.drop_subset _ _ (ih _ _ h t ht)

/-- Characterization of an aborted info run: some batch j exhausted its
three attempts with an empty result; its symbols and every later symbol
are recorded False, later symbols appear in no provider call, the result
on the earlier batches agrees with the run over just those batches, and
every call stays within the batches up to and including j. -/
theorem runInfoBatches_abort_spec (env : InfoEnv) :
    ∀ (fuel c : Nat) (res : ResMap) (xs : List String),
      xs.length ≤ fuel → xs.Nodup → (∀ t ∈ xs, res t = none) →
      (runInfoBatches env fuel c res xs).2.2 = true →
      ∃ j c',
        (xs.drop (100 * j)).take 100 ≠ [] ∧
        (attemptFetchInfo env ((xs.drop (100 * j)).take 100) c' 3).1 = [] ∧
        (∀ s ∈ (xs.drop (100 * j)).take 100,
          (runInfoBatches env fuel c res xs).1 s = some false) ∧
        (∀ s ∈ xs.drop (100 * j + 100),
          (runInfoBatches env fuel c res xs).1 s = some false ∧
          ∀ bs ∈ callsOf (runInfoBatches env fuel c res xs).2.1, s ∉ bs) ∧
        (∀ s ∈ xs.take (100 * j),
          (runInfoBatches env fuel c res xs).1 s
            = (runInfoBatches env (100 * j) c res (xs.take (100 * j))).1 s) ∧
        (∀ bs ∈ callsOf (runInfoBatches env fuel c res xs).2.1, ∀ t ∈ bs,
          t ∈ xs.take (100 * j + 100)) := by
  intro fuel
  induction fuel with
  | zero =>
    intro c res xs _ _ _ hab
    cases hab
  | succ k ih =>
    intro c res xs hlen hnd hres hab
    cases xs with
    | nil => rw [runInfoBatches_nil] at hab; cases hab
    | cons x xt =>
      have hxe : (x :: xt).isEmpty = false := rfl
      have hdisj : List.Disjoint ((x :: xt).take 100) ((x :: xt).drop 100) :=
        List.disjoint_of_nodup_append (by rw [List.take_append_drop]; exact hnd)
      cases hf : (attemptFetchInfo env ((x :: xt).take 100) c 3).1.isEmpty with
      | true =>
        have hstep := runInfoBatches_abort_step env k c res (x :: xt) hxe hf
        have hfst : (runInfoBatches env (k + 1) c res (x :: xt)).1
            = markMissing (markAll res ((x :: xt).take 100) false)
                ((x :: xt).drop 100) false := by rw [hstep]
        have htr : (runInfoBatches env (k + 1) c res (x :: xt)).2.1
            = (attemptFetchInfo env ((x :: xt).take 100) c 3).2.2 := by
          rw [hstep]
        refine ⟨0, c, ?_, ?_, ?_, ?_, ?_, ?_⟩
        · simp [List.take_succ_cons]
        · simpa using List.isEmpty_iff.mp hf
        · intro s hs
          rw [hfst]
          simp only [Nat.mul_zero, List.drop_zero] at hs
          exact markMissing_some _ _ _ _ _ (markAll_mem _ _ _ _ hs)
        · intro s hs
          simp only [Nat.mul_zero, Nat.zero_add] at hs
          have hnb : s ∉ (x :: xt).take 100 := fun h => hdisj h hs
          constructor
          · rw [hfst, markMissing_mem _ _ _ _ hs,
              markAll_not_mem _ _ _ _ hnb,
              hres s (List.drop_subset _ _ hs)]
            rfl
          · intro bs hbs
            rw [htr] at hbs
            have : bs = (x :: xt).take 100 :=
              attemptFetchInfo_calls env _ _ _ _ hbs
            subst this
            exact hnb
        · intro s hs
          simp only [Nat.mul_zero, List.take_zero] at hs
          cases hs
        · intro bs hbs t ht
          rw [htr] at hbs
          have : bs = (x :: xt).take 100 :=
            attemptFetchInfo_calls env _ _ _ _ hbs
          subst this
          simpa using ht
      | false =>
        have hstep := runInfoBatches_ok_step env k c res (x :: xt) hxe hf
        have hfst : (runInfoBatches env (k + 1) c res (x :: xt)).1
            = (runInfoBatches env k
                (attemptFetchInfo env ((x :: xt).take 100) c 3).2.1
                (processInfoBatch env res
                  (attemptFetchInfo env ((x :: xt).take 100) c 3).1
                  ((x :: xt).take 100)) ((x :: xt).drop 100)).1 := by
          rw [hstep]
        have htr : (runInfoBatches env (k + 1) c res (x :: xt)).2.1
            = (if ((x :: xt).drop 100).isEmpty
                then (attemptFetchInfo env ((x :: xt).take 100) c 3).2.2
                else (attemptFetchInfo env ((x :: xt).take 100) c 3).2.2
                  ++ [Ev.sleepFor 10])
              ++ (runInfoBatches env k
                   (attemptFetchInfo env ((x :: xt).take 100) c 3).2.1
                   (processInfoBatch env res
                     (attemptFetchInfo env ((x :: xt).take 100) c 3).1
                     ((x :: xt).take 100)) ((x :: xt).drop 100)).2.1 := by
          rw [hstep]
        have hab2 : (runInfoBatches env (k + 1) c res (x :: xt)).2.2
            = (runInfoBatches env k
                (attemptFetchInfo env ((x :: xt).take 100) c 3).2.1
                (processInfoBatch env res
                  (attemptFetchInfo env ((x :: xt).take 100) c 3).1
                  ((x :: xt).take 100)) ((x :: xt).drop 100)).2.2 := by
          rw [hstep]
        rw [hab2] at hab
        have hndr : ((x :: xt).drop 100).Nodup :=
          hnd.sublist (List.drop_sublist 100 (x :: xt))
        have hres1 : ∀ t ∈ (x :: xt).drop 100,
            processInfoBatch env res
              (attemptFetchInfo env ((x :: xt).take 100) c 3).1
              ((x :: xt).take 100) t = none := by
          intro t ht
          rw [processInfoBatch_not_mem _ _ _ _ _ (fun h => hdisj h ht)]
          exact hres t (List.drop_subset _ _ ht)
        have hlenr : ((x :: xt).drop 100).length ≤ k := by
          rw [List.length_drop]
          simp only [List.length_cons] at hlen ⊢
          omega
        obtain ⟨j', c'', hbadne, hatt, hbad, hrest, hpre, hcallsb⟩ :=
          ih (attemptFetchInfo env ((x :: xt).take 100) c 3).2.1
            (processInfoBatch env res
              (attemptFetchInfo env ((x :: xt).take 100) c 3).1
              ((x :: xt).take 100)) ((x :: xt).drop 100) hlenr hndr hres1 hab
        have hrne : (x :: xt).drop 100 ≠ [] := by
          intro hcon
          rw [hcon] at hbadne
          simp at hbadne
        have hb1len : ((x :: xt).take 100).length = 100 := by
          rw [List.length_take]
          have : 100 < (x :: xt).length := by
            by_contra hcon
            apply hrne
            have : (x :: xt).length ≤ 100 := by omega
            exact List.drop_eq_nil_of_le this
          omega
        have harith1 : 100 * (j' + 1) = 100 + 100 * j' := by ring
        have harith2 : 100 * (j' + 1) + 100 = 100 + (100 * j' + 100) := by ring
        have hd1 : (x :: xt).drop (100 * (j' + 1))
            = ((x :: xt).drop 100).drop (100 * j') := by
          rw [List.drop_drop]
          try (congr 1 <;> omega)
        have hd2 : (x :: xt).drop (100 * (j' + 1) + 100)
            = ((x :: xt).drop 100).drop (100 * j' + 100) := by
          rw [List.drop_drop]
          try (congr 1 <;> omega)
        have ht1 : (x :: xt).take (100 * (j' + 1))
            = (x :: xt).take 100 ++ ((x :: xt).drop 100).take (100 * j') := by
          rw [harith1, List.take_add]
        have ht2 : (x :: xt).take (100 * (j' + 1) + 100)
            = (x :: xt).take 100
              ++ ((x :: xt).drop 100).take (100 * j' + 100) := by
          rw [harith2, List.take_add]
        refine ⟨j' + 1, c'', ?_, ?_, ?_, ?_, ?_, ?_⟩
        · rw [hd1]; exact hbadne
        · rw [hd1]; exact hatt
        · intro s hs
          rw [hd1] at hs
          rw [hfst]
          exact hbad s hs
        · intro s hs
          rw [hd2] at hs
          have hsr : s ∈ (x :: xt).drop 100 := List.drop_subset _ _ hs
          have hnb : s ∉ (x :: xt).take 100 := fun h => hdisj h hsr
          refine ⟨by rw [hfst]; exact (hrest s hs).1, ?_⟩
          intro bs hbs
          rw [htr, callsOf_append] at hbs
          rcases List.mem_append.mp hbs with hbs | hbs
          · have hbs1 : bs = (x :: xt).take 100 := by
              by_cases hre : ((x :: xt).drop 100).isEmpty
              · rw [if_pos hre] at hbs
                exact attemptFetchInfo_calls env _ _ _ _ hbs
              · rw [if_neg hre, callsOf_append] at hbs
                rcases List.mem_append.mp hbs with hbs | hbs
                · exact attemptFetchInfo_calls env _ _ _ _ hbs
                · simp [callsOf] at hbs
            subst hbs1
            exact hnb
          · exact (hrest s hs).2 bs hbs
        · intro s hs
          rw [ht1] at hs
          have hprefix_run :
              runInfoBatches env (100 * (j' + 1)) c res
                ((x :: xt).take 100 ++ ((x :: xt).drop 100).take (100 * j'))
              = ((runInfoBatches env (100 * j' + 99)
                   (attemptFetchInfo env ((x :: xt).take 100) c 3).2.1
                   (processInfoBatch env res
                     (attemptFetchInfo env ((x :: xt).take 100) c 3).1
                     ((x :: xt).take 100))
                   (((x :: xt).drop 100).take (100 * j'))).1,
                 (if ((((x :: xt).drop 100).take (100 * j'))).isEmpty
                    then (attemptFetchInfo env ((x :: xt).take 100) c 3).2.2
                    else (attemptFetchInfo env ((x :: xt).take 100) c 3).2.2
                      ++ [Ev.sleepFor 10])
                   ++ (runInfoBatches env (100 * j' + 99)
                        (attemptFetchInfo env ((x :: xt).take 100) c 3).2.1
                        (processInfoBatch env res
                          (attemptFetchInfo env ((x :: xt).take 100) c 3).1
                          ((x :: xt).take 100))
                        (((x :: xt).drop 100).take (100 * j'))).2.1,
                 (runInfoBatches env (100 * j' + 99)
                    (attemptFetchInfo env ((x :: xt).take 100) c 3).2.1
                    (processInfoBatch env res
                      (attemptFetchInfo env ((x :: xt).take 100) c 3).1
                      ((x :: xt).take 100))
                    (((x :: xt).drop 100).take (100 * j'))).2.2) := by
            have hful : 100 * (j' + 1) = (100 * j' + 99) + 1 := by ring
            have happ_ne : ((x :: xt).take 100
                ++ ((x :: xt).drop 100).take (100 * j')).isEmpty = false := by
              rw [List.isEmpty_eq_false_iff_exists_mem]
              exact ⟨x, List.mem_append_left _ (by simp [List.take_succ_cons])⟩
            have htake_app : ((x :: xt).take 100
                ++ ((x :: xt).drop 100).take (100 * j')).take 100
                = (x :: xt).take 100 := by
              rw [List.take_append_of_le_length (by rw [hb1len]),
                List.take_of_length_le (by rw [hb1len])]
            have hdrop_app : ((x :: xt).take 100
                ++ ((x :: xt).drop 100).take (100 * j')).drop 100
                = ((x :: xt).drop 100).take (100 * j') := by
              rw [List.drop_append_of_le_length (by rw [hb1len]),
                List.drop_eq_nil_of_le (by rw [hb1len]), List.nil_append]
            rw [hful]
            rw [runInfoBatches_ok_step env (100 * j' + 99) c res _ happ_ne
              (by rw [htake_app]; exact hf)]
            rw [htake_app, hdrop_app]
          rcases List.mem_append.mp hs with hsb | hsp
          · -- s in the first batch: both runs record it during that batch
            have hnr : s ∉ (x :: xt).drop 100 := fun h => hdisj hsb h
            have hnp : s ∉ ((x :: xt).drop 100).take (100 * j') :=
              fun h => hnr (List.take_subset _ _ h)
            rw [hfst, runInfoBatches_not_mem env _ _ _ _ _ hnr, ht1,
              hprefix_run]
            show _ = (runInfoBatches env (100 * j' + 99) _ _ _).1 s
            rw [runInfoBatches_not_mem env _ _ _ _ _ hnp]
          · -- s in an earlier completed batch of the tail
            have hple : (((x :: xt).drop 100).take (100 * j')).length
                ≤ 100 * j' := by
              rw [List.length_take]; omega
            rw [hfst, hpre s hsp, ht1, hprefix_run]
            show _ = (runInfoBatches env (100 * j' + 99) _ _ _).1 s
            rw [runInfoBatches_fuel env (100 * j') (100 * j' + 99) _ _ _
              hple (by omega)]
        · intro bs hbs t ht
          rw [htr, callsOf_append] at hbs
          rw [ht2]
          rcases List.mem_append.mp hbs with hbs | hbs
          · have hbs1 : bs = (x :: xt).take 100 := by
              by_cases hre : ((x :: xt).drop 100).isEmpty
              · rw [if_pos hre] at hbs
                exact attemptFetchInfo_calls env _ _ _ _ hbs
              · rw [if_neg hre, callsOf_append] at hbs
                rcases List.mem_append.mp hbs with hbs | hbs
                · exact attemptFetchInfo_calls env _ _ _ _ hbs
                · simp [callsOf] at hbs
            subst hbs1
            exact List.mem_append_left _ ht
          · exact List.mem_append_right _ (hcallsb bs hbs t ht)

/-! ### Unfolding lemmas for the orchestrators -/

theorem update_tiker_info_of_empty (env : InfoEnv) (symbols : List String)
    (h : (classifyInfo env symbols).2.isEmpty = true) :
    update_tiker_info env symbols false = (fromkeys symbols true, [], false) := by
  simp [update_tiker_info, h]

theorem update_tiker_info_of_run (env : InfoEnv) (symbols : List String)
    (h : (classifyInfo env symbols).2.isEmpty = false)
    (hr : env.summaryRaises = false) :
    update_tiker_info env symbols false
      = runInfoBatches env (classifyInfo env symbols).2.length 0
          (classifyInfo env symbols).1 (classifyInfo env symbols).2 := by
  simp [update_tiker_info, h, hr]

theorem update_tiker_info_of_raise (env : InfoEnv) (symbols : List String)
    (h : (classifyInfo env symbols).2.isEmpty = false)
    (hr : env.summaryRaises = true) :
    update_tiker_info env symbols false
      = (fromkeys symbols false,
         (runInfoBatches env (classifyInfo env symbols).2.length 0
           (classifyInfo env symbols).1 (classifyInfo env symbols).2).2.1,
         (runInfoBatches env (classifyInfo env symbols).2.length 0
           (classifyInfo env symbols).1 (classifyInfo env symbols).2).2.2) := by
  simp [update_tiker_info, h, hr]

theorem update_tiker_prices_of_empty (env : PricesEnv) (symbols : List String)
    (h : (classifyPrices env symbols).2.isEmpty = true) :
    update_tiker_prices env symbols = (fromkeys symbols true, []) := by
  simp [update_tiker_prices, h]

theorem update_tiker_prices_of_run (env : PricesEnv) (symbols : List String)
    (h : (classifyPrices env symbols).2.isEmpty = false)
    (hr : env.summaryRaises = false) :
    update_tiker_prices env symbols
      = runPriceBatches env (classifyPrices env symbols).2.length 0
          (classifyPrices env symbols).1 (classifyPrices env symbols).2 := by
  simp [update_tiker_prices, h, hr]

theorem update_tiker_prices_of_raise (env : PricesEnv) (symbols : List String)
    (h : (classifyPrices env symbols).2.isEmpty = false)
    (hr : env.summaryRaises = true) :
    update_tiker_prices env symbols
      = (fromkeys symbols false,
         (runPriceBatches env (classifyPrices env symbols).2.length 0
           (classifyPrices env symbols).1 (classifyPrices env symbols).2).2) := by
  simp [update_tiker_prices, h, hr]

theorem fromkeys_mem (l : List String) (b : Bool) (s : String) (h : s ∈ l) :
    fromkeys l b s = some b := by
  simp [fromkeys, h]

/-! ### Digest-integer support lemmas -/

set_option maxRecDepth 8000 in
theorem hexVal_hexChar : ∀ n : Nat, n < 16 → hexVal (hexChar n) = n := by
  decide

theorem leBytes_lt : ∀ (k n : Nat), ∀ b ∈ leBytes k n, b < 256 := by
  intro k
  induction k with
  | zero => intro n b hb; cases hb
  | succ j ih =>
    intro n b hb
    rcases List.mem_cons.mp hb with h | h
    · subst h; exact Nat.mod_lt _ (by norm_num)
    · exact ih _ _ h

theorem md5Bytes_lt (msg : List Nat) : ∀ b ∈ md5Bytes msg, b < 256 := by
  intro b hb
  simp only [md5Bytes, List.mem_append] at hb
  rcases hb with ((h | h) | h) | h <;> exact leBytes_lt _ _ _ h

theorem hexfold_render :
    ∀ (bs : List Nat) (acc : Nat), (∀ b ∈ bs, b < 256) →
      ((bs.map byteHex).flatten).foldl (fun a c => 16 * a + hexVal c) acc
        = bs.foldl (fun a b => 256 * a + b) acc := by
  intro bs
  induction bs with
  | nil => intro acc _; rfl
  | cons b bt ih =>
    intro acc hb
    have hblt : b < 256 := hb b (List.mem_cons_self _ _)
    show ((bt.map byteHex).flatten).foldl _
        (16 * (16 * acc + hexVal (hexChar (b / 16))) + hexVal (hexChar (b % 16)))
      = bt.foldl _ (256 * acc + b)
    rw [hexVal_hexChar (b / 16) (by omega),
      hexVal_hexChar (b % 16) (Nat.mod_lt _ (by norm_num))]
    have harith : 16 * (16 * acc + b / 16) + b % 16 = 256 * acc + b := by omega
    rw [harith]
    exact ih _ (fun x hx => hb x (List.mem_cons_of_mem _ hx))

theorem hexToNat_md5Hexdigest (s : String) :
    hexToNat (md5Hexdigest s)
      = (md5Bytes (utf8Bytes s)).foldl (fun a b => 256 * a + b) 0 :=
  hexfold_render (md5Bytes (utf8Bytes s)) 0 (md5Bytes_lt _)

/-! ### The claims -/

/-- Claim C4: get_ticker_info_update_interval_days is a deterministic
function of the symbol string alone, equals 14 plus the MD5 integer of
the symbol modulo 7 (a fixed, non-keyed hash), and always lies in
[14, 20]. -/
theorem interval_days_deterministic_range :
    (∀ s₁ s₂ : String, s₁ = s₂ →
      get_ticker_info_update_interval_days s₁
        = get_ticker_info_update_interval_days s₂) ∧
    (∀ s : String, get_ticker_info_update_interval_days s
        = 14 + hexToNat (md5Hexdigest s) % 7) ∧
    (∀ s : String, get_ticker_info_update_interval_days s
        = 14 + ((md5Bytes (utf8Bytes s)).foldl (fun a b => 256 * a + b) 0) % 7) ∧
    (∀ s : String, 14 ≤ get_ticker_info_update_interval_days s ∧
      get_ticker_info_update_interval_days s ≤ 20) := by
  refine ⟨fun s₁ s₂ h => by rw [h], fun s => rfl, fun s => ?_, fun s => ?_⟩
  · show 14 + hexToNat (md5Hexdigest s) % 7 = _
    rw [hexToNat_md5Hexdigest]
  · have hm : hexToNat (md5Hexdigest s) % 7 < 7 := Nat.mod_lt _ (by norm_num)
    show 14 ≤ 14 + hexToNat (md5Hexdigest s) % 7 ∧
      14 + hexToNat (md5Hexdigest s) % 7 ≤ 20
    omega

set_option maxRecDepth 8000 in
/-- Witness for C4: the interval of the repository's own test symbol 7203
is 18, inside [14, 20], and the function is reproducible on it. -/
theorem interval_days_deterministic_range_witness :
    get_ticker_info_update_interval_days "7203"
        = get_ticker_info_update_interval_days "7203" ∧
    14 ≤ get_ticker_info_update_interval_days "7203" ∧
    get_ticker_info_update_interval_days "7203" ≤ 20 ∧
    get_ticker_info_update_interval_days "7203" = 18 :=
  ⟨interval_days_deterministic_range.1 "7203" "7203" rfl,
   (interval_days_deterministic_range.2.2.2 "7203").1,
   (interval_days_deterministic_range.2.2.2 "7203").2,
   by decide⟩

/-- Claim C7: insert_stock_prices wholesale-replaces the symbol's rows:
on the success path it returns true, the stored rows for the symbol are
exactly the payload rows, rows of other symbols are untouched, and the
operation is idempotent. -/
theorem insert_stock_prices_wholesale_idempotent :
    ∀ (store : List PriceRow) (symbol : String)
      (data : List (String × List (String × Int))),
      (insert_stock_prices false store symbol data).2 = true ∧
      (insert_stock_prices false store symbol data).1.filter
          (fun row => row.symbol == symbol)
        = data.map (fun r => PriceRow.mk symbol r.1 r.2) ∧
      (insert_stock_prices false store symbol data).1.filter
          (fun row => row.symbol != symbol)
        = store.filter (fun row => row.symbol != symbol) ∧
      insert_stock_prices false (insert_stock_prices false store symbol data).1
          symbol data
        = ((insert_stock_prices false store symbol data).1, true) := by
  intro store symbol data
  have hres : insert_stock_prices false store symbol data
      = (store.filter (fun row => row.symbol != symbol)
          ++ data.map (fun r => PriceRow.mk symbol r.1 r.2), true) := rfl
  have hold : (store.filter (fun row => row.symbol != symbol)).filter
      (fun row => row.symbol != symbol)
      = store.filter (fun row => row.symbol != symbol) :=
    List.filter_eq_self.mpr (fun a ha => (List.mem_filter.mp ha).2)
  have holdeq : (store.filter (fun row => row.symbol != symbol)).filter
      (fun row => row.symbol == symbol) = [] := by
    apply List.filter_eq_nil_iff.mpr
    intro a ha
    have := (List.mem_filter.mp ha).2
    simp only [bne] at this
    simp [Bool.not_eq_true] at this ⊢
    simp [this]
  have hneweq : (data.map (fun r => PriceRow.mk symbol r.1 r.2)).filter
      (fun row => row.symbol == symbol)
      = data.map (fun r => PriceRow.mk symbol r.1 r.2) := by
    apply List.filter_eq_self.mpr
    intro a ha
    rcases List.mem_map.mp ha with ⟨r, _, hr⟩
    subst hr
    simp
  have hnewne : (data.map (fun r => PriceRow.mk symbol r.1 r.2)).filter
      (fun row => row.symbol != symbol) = [] := by
    apply List.filter_eq_nil_iff.mpr
    intro a ha
    rcases List.mem_map.mp ha with ⟨r, _, hr⟩
    subst hr
    simp
  have hfst : (insert_stock_prices false store symbol data).1
      = store.filter (fun row => row.symbol != symbol)
        ++ data.map (fun r => PriceRow.mk symbol r.1 r.2) := rfl
  have hstep2 : insert_stock_prices false
      (store.filter (fun row => row.symbol != symbol)
        ++ data.map (fun r => PriceRow.mk symbol r.1 r.2)) symbol data
      = ((store.filter (fun row => row.symbol != symbol)
          ++ data.map (fun r => PriceRow.mk symbol r.1 r.2)).filter
            (fun row => row.symbol != symbol)
          ++ data.map (fun r => PriceRow.mk symbol r.1 r.2), true) := rfl
  refine ⟨rfl, ?_, ?_, ?_⟩
  · rw [hfst, List.filter_append, holdeq, hneweq, List.nil_append]
  · rw [hfst, List.filter_append, hold, hnewne, List.append_nil]
  · rw [hfst, hstep2, List.filter_append, hold, hnewne, List.append_nil]

/-- Claim C3: the Series staleness test selects an entity as due exactly
when its stored date is absent or strictly before yesterday; an entity
refreshed today or yesterday is never selected, one refreshed two or
more days ago always is, and a not-due entity is recorded True without
any provider call. -/
theorem series_staleness_selection :
    ∀ (env : PricesEnv) (symbols : List String) (s : String),
      (duePricesB env s = true ↔
        (lookupD env.latest s = none ∨
         ∃ d, lookupD env.latest s = some d ∧ d < env.today - 1)) ∧
      (∀ d, lookupD env.latest s = some d → env.today - 1 ≤ d →
        duePricesB env s = false) ∧
      (∀ d, lookupD env.latest s = some d → d ≤ env.today - 2 →
        duePricesB env s = true) ∧
      (s ∈ symbols →
        (s ∈ (classifyPrices env symbols).2 ↔ duePricesB env s = true)) ∧
      (env.summaryRaises = false → s ∈ symbols → duePricesB env s = false →
        (update_tiker_prices env symbols).1 s = some true ∧
        ∀ bs ∈ callsOf (update_tiker_prices env symbols).2, s ∉ bs) := by
  intro env symbols s
  refine ⟨?_, ?_, ?_, ?_, ?_⟩
  · cases hl : lookupD env.latest s with
    | none => simp [duePricesB, hl]
    | some d => simp [duePricesB, hl]
  · intro d hd hle
    simp only [duePricesB, hd]
    simp
    omega
  · intro d hd hle
    simp only [duePricesB, hd]
    simp
    omega
  · intro hmem
    rw [classifyPrices_snd]
    simp [List.mem_filter, hmem]
  · intro hnr hmem hdue
    have hnotin : s ∉ (classifyPrices env symbols).2 := by
      rw [classifyPrices_snd]
      simp [List.mem_filter, hdue]
    cases hcle : (classifyPrices env symbols).2.isEmpty with
    | true =>
      rw [update_tiker_prices_of_empty env symbols hcle]
      refine ⟨fromkeys_mem symbols true s hmem, ?_⟩
      intro bs hbs
      simp [callsOf] at hbs
    | false =>
      rw [update_tiker_prices_of_run env symbols hcle hnr]
      constructor
      · rw [runPriceBatches_not_mem env _ _ _ _ _ hnotin, classifyPrices_fst]
        simp [hmem, hdue]
      · intro bs hbs hsin
        rw [runPriceBatches_calls_eq] at hbs
        exact hnotin (sliceChunks_subset 1000 _ _ _ hbs s hsin)

/-- Witness for C3: with stored dates A yesterday, B three days ago and
C today, A is not selected, B is selected, and A ends True having been
in no provider call. -/
theorem series_staleness_selection_witness :
    duePricesB envPricesDates "A" = false ∧
    duePricesB envPricesDates "B" = true ∧
    (update_tiker_prices envPricesDates ["A", "B", "C"]).1 "A" = some true ∧
    ∀ bs ∈ callsOf (update_tiker_prices envPricesDates ["A", "B", "C"]).2,
      "A" ∉ bs :=
  ⟨(series_staleness_selection envPricesDates ["A", "B", "C"] "A").2.1 (-1)
     (by decide) (by decide),
   (series_staleness_selection envPricesDates ["A", "B", "C"] "B").2.2.1 (-3)
     (by decide) (by decide),
   ((series_staleness_selection envPricesDates ["A", "B", "C"] "A").2.2.2.2
     rfl (by decide) (by decide)).1,
   ((series_staleness_selection envPricesDates ["A", "B", "C"] "A").2.2.2.2
     rfl (by decide) (by decide)).2⟩

/-- Claim C6: when no entity is due, both orchestrators return all-True
immediately, with an empty event trace (zero provider calls, zero
batches). -/
theorem no_due_short_circuit :
    ∀ (ienv : InfoEnv) (penv : PricesEnv) (symbols : List String),
      ((∀ s ∈ symbols, dueInfoB ienv s = false) →
        update_tiker_info ienv symbols false
          = (fromkeys symbols true, [], false) ∧
        ∀ s ∈ symbols, (update_tiker_info ienv symbols false).1 s
          = some true) ∧
      ((∀ s ∈ symbols, duePricesB penv s = false) →
        update_tiker_prices penv symbols = (fromkeys symbols true, []) ∧
        ∀ s ∈ symbols, (update_tiker_prices penv symbols).1 s
          = some true) := by
  intro ienv penv symbols
  constructor
  · intro hall
    have hempty : (classifyInfo ienv symbols).2.isEmpty = true := by
      rw [classifyInfo_snd,
        List.filter_eq_nil_iff.mpr (fun a ha => by simp [hall a ha])]
      rfl
    have heq := update_tiker_info_of_empty ienv symbols hempty
    exact ⟨heq, fun s hs => by rw [heq]; exact fromkeys_mem symbols true s hs⟩
  · intro hall
    have hempty : (classifyPrices penv symbols).2.isEmpty = true := by
      rw [classifyPrices_snd,
        List.filter_eq_nil_iff.mpr (fun a ha => by simp [hall a ha])]
      rfl
    have heq := update_tiker_prices_of_empty penv symbols hempty
    exact ⟨heq, fun s hs => by rw [heq]; exact fromkeys_mem symbols true s hs⟩

set_option maxRecDepth 8000 in
/-- Witness for C6: a snapshot cohort refreshed within its interval and a
series cohort refreshed today and yesterday short-circuit to all-True
with an empty trace. -/
theorem no_due_short_circuit_witness :
    update_tiker_info envInfoFresh ["A"] false
      = (fromkeys ["A"] true, [], false) ∧
    (update_tiker_info envInfoFresh ["A"] false).1 "A" = some true ∧
    update_tiker_prices envPricesDates ["A", "C"]
      = (fromkeys ["A", "C"] true, []) ∧
    (update_tiker_prices envPricesDates ["A", "C"]).1 "C" = some true :=
  ⟨((no_due_short_circuit envInfoFresh envPricesDates ["A"]).1
      (by decide)).1,
   ((no_due_short_circuit envInfoFresh envPricesDates ["A"]).1
      (by decide)).2 "A" (by decide),
   ((no_due_short_circuit envInfoFresh envPricesDates ["A", "C"]).2
      (by decide)).1,
   ((no_due_short_circuit envInfoFresh envPricesDates ["A", "C"]).2
      (by decide)).2 "C" (by decide)⟩

/-- Claim C9: a failed Entity Store read is fail-open on staleness: the
read's exception branch yields the empty map, and an entity absent from
the returned map (or stored with a null date) is classified due and
joins symbols_to_update. -/
theorem staleness_read_fail_open :
    ∀ (penv : PricesEnv) (symbols : List String) (s : String),
      (∀ s', lookupD (get_latest_price_dates none) s' = none) ∧
      (lookupD penv.latest s = none → duePricesB penv s = true) ∧
      (lookupD penv.latest s = none → s ∈ symbols →
        s ∈ (classifyPrices penv symbols).2) := by
  intro penv symbols s
  refine ⟨fun s' => rfl, fun h => by simp [duePricesB, h], fun h hmem => ?_⟩
  rw [classifyPrices_snd]
  exact List.mem_filter.mpr ⟨hmem, by simp [duePricesB, h]⟩

/-- Witness for C9: a raising bulk read yields the empty map, and the
absent symbol A is due and selected. -/
theorem staleness_read_fail_open_witness :
    lookupD (get_latest_price_dates none) "A" = none ∧
    duePricesB envPricesDown "A" = true ∧
    "A" ∈ (classifyPrices envPricesDown ["A"]).2 :=
  ⟨(staleness_read_fail_open envPricesDown ["A"] "A").1 "A",
   (staleness_read_fail_open envPricesDown ["A"] "A").2.1 rfl,
   (staleness_read_fail_open envPricesDown ["A"] "A").2.2 rfl (by decide)⟩

/-- Claim C5: per-entity extraction from a successful batch result marks
an entity failed without aborting the batch (every sibling still
receives an outcome); for Snapshot an entity succeeds exactly when its
formatted symbol is present with more than 5 fields and the persistence
call returns true, for Series exactly when its slice is present,
non-empty, holds the five OHLCV columns after lower-casing, stays
non-empty after dropping null rows, and the persistence call returns
true. -/
theorem per_entity_extraction_isolation :
    ∀ (ienv : InfoEnv) (res : ResMap) (m : List (String × Nat))
      (batch : List String) (s : String) (penv : PricesEnv) (res' : ResMap)
      (frame : List (String × SeriesPayload)) (batch' : List String)
      (s' : String),
      (s ∈ batch →
        processInfoBatch ienv res m batch s
          = some (extractInfoOutcome ienv m s)) ∧
      (∀ t ∈ batch, ∃ b, processInfoBatch ienv res m batch t = some b) ∧
      (extractInfoOutcome ienv m s = true ↔
        ∃ n, assocFind m (format_symbol s) = some n ∧ 5 < n ∧
          ienv.insertOk s n = true) ∧
      (s' ∈ batch' →
        processPricesBatch penv res' frame batch' s'
          = some (extractPricesOutcome penv frame s')) ∧
      (∀ t ∈ batch',
        ∃ b, processPricesBatch penv res' frame batch' t = some b) ∧
      (extractPricesOutcome penv frame s' = true ↔
        ∃ p, assocFind frame (format_symbol s') = some p ∧
          p.rows.isEmpty = false ∧
          requiredColumns.all
            (fun c => (p.cols.map lowerStr).contains c) = true ∧
          (p.rows.filter (fun r => requiredColumns.all
            (fun c => (r.map lowerStr).contains c))).isEmpty = false ∧
          penv.insertOk s'
            { cols := requiredColumns,
              rows := p.rows.filter (fun r => requiredColumns.all
                (fun c => (r.map lowerStr).contains c)) } = true) := by
  intro ienv res m batch s penv res' frame batch' s'
  refine ⟨fun hs => processInfoBatch_mem ienv res m batch s hs,
    fun t ht => ⟨_, processInfoBatch_mem ienv res m batch t ht⟩, ?_,
    fun hs => processPricesBatch_mem penv res' frame batch' s' hs,
    fun t ht => ⟨_, processPricesBatch_mem penv res' frame batch' t ht⟩, ?_⟩
  · cases ha : assocFind m (format_symbol s) with
    | none => simp [extractInfoOutcome, ha]
    | some n =>
      by_cases h5 : 5 < n
      · simp [extractInfoOutcome, ha, h5]
      · simp [extractInfoOutcome, ha, h5]
  · cases ha : assocFind frame (format_symbol s') with
    | none =>
      simp only [extractPricesOutcome, ha]
      constructor
      · intro h; cases h
      · rintro ⟨p', hp', -⟩; cases hp'
    | some p =>
      simp only [extractPricesOutcome, ha]
      cases hre : p.rows.isEmpty with
      | true =>
        rw [if_pos rfl]
        constructor
        · intro h; cases h
        · rintro ⟨p', hp', h1, -⟩
          injection hp' with hp'
          subst hp'
          rw [hre] at h1
          cases h1
      | false =>
        rw [if_neg (by simp)]
        cases hcols : requiredColumns.all
            (fun c => (p.cols.map lowerStr).contains c) with
        | false =>
          rw [if_neg (by simp)]
          constructor
          · intro h; cases h
          · rintro ⟨p', hp', -, h2, -⟩
            injection hp' with hp'
            subst hp'
            rw [hcols] at h2
            cases h2
        | true =>
          rw [if_pos rfl]
          cases hkept : (p.rows.filter (fun r => requiredColumns.all
              (fun c => (r.map lowerStr).contains c))).isEmpty with
          | true =>
            rw [if_pos rfl]
            constructor
            · intro h; cases h
            · rintro ⟨p', hp', -, -, h3, -⟩
              injection hp' with hp'
              subst hp'
              rw [hkept] at h3
              cases h3
          | false =>
            rw [if_neg (by simp)]
            constructor
            · intro h
              exact ⟨p, rfl, hre, hcols, hkept, h⟩
            · rintro ⟨p', hp', -, -, -, h4⟩
              injection hp' with hp'
              subst hp'
              exact h4

/-- Witness for C5: in a batch [A, B] whose result holds a rich record
only for A.T, A succeeds via the persistence result, the sibling B still
receives an outcome, and a fully valid price payload for A.T succeeds. -/
theorem per_entity_extraction_isolation_witness :
    processInfoBatch envInfoRetry (fun _ => none) [("A.T", 10)] ["A", "B"] "A"
      = some (extractInfoOutcome envInfoRetry [("A.T", 10)] "A") ∧
    extractInfoOutcome envInfoRetry [("A.T", 10)] "A" = true ∧
    (∃ b, processInfoBatch envInfoRetry (fun _ => none) [("A.T", 10)]
      ["A", "B"] "B" = some b) ∧
    processPricesBatch envPricesOnce (fun _ => none) [("A.T", goodPayload)]
      ["A"] "A"
      = some (extractPricesOutcome envPricesOnce [("A.T", goodPayload)] "A") ∧
    extractPricesOutcome envPricesOnce [("A.T", goodPayload)] "A" = true :=
  ⟨(per_entity_extraction_isolation envInfoRetry (fun _ => none)
      [("A.T", 10)] ["A", "B"] "A" envPricesOnce (fun _ => none)
      [("A.T", goodPayload)] ["A"] "A").1 (by decide),
   (per_entity_extraction_isolation envInfoRetry (fun _ => none)
      [("A.T", 10)] ["A", "B"] "A" envPricesOnce (fun _ => none)
      [("A.T", goodPayload)] ["A"] "A").2.2.1.mpr
     ⟨10, by decide, by decide, by decide⟩,
   (per_entity_extraction_isolation envInfoRetry (fun _ => none)
      [("A.T", 10)] ["A", "B"] "B" envPricesOnce (fun _ => none)
      [("A.T", goodPayload)] ["A"] "A").2.1 "B" (by decide),
   (per_entity_extraction_isolation envInfoRetry (fun _ => none)
      [("A.T", 10)] ["A", "B"] "A" envPricesOnce (fun _ => none)
      [("A.T", goodPayload)] ["A"] "A").2.2.2.1 (by decide),
   (per_entity_extraction_isolation envInfoRetry (fun _ => none)
      [("A.T", 10)] ["A", "B"] "A" envPricesOnce (fun _ => none)
      [("A.T", goodPayload)] ["A"] "A").2.2.2.2.2.mpr
     ⟨goodPayload, by decide, by decide, by decide, by decide, by decide⟩⟩

/-- Counterexample for C2: with a provider whose first download is empty
and whose second download would succeed, update_tiker_prices makes
exactly one provider call for the due batch [A] and marks A failed — no
retry is attempted on the Series path. -/
theorem update_tiker_prices_no_retry_counterexample :
    duePricesB envPricesOnce "A" = true ∧
    (getStockPricesM envPricesOnce 0 ["A"]).isEmpty = true ∧
    (getStockPricesM envPricesOnce 1 ["A"]).isEmpty = false ∧
    (update_tiker_prices envPricesOnce ["A"]).2 = [Ev.call ["A"]] ∧
    (update_tiker_prices envPricesOnce ["A"]).1 "A" = some false := by
  decide

/-- Claim C2 (amended): the retry policy applies only to the Snapshot
path: attemptFetchInfo stops at the first non-empty result (one call),
a first-empty second-success batch gets exactly two calls separated by a
2-second sleep, and three empty attempts produce three calls with two
2-second sleeps; the Series path performs exactly one provider call per
batch of its loop. -/
theorem retry_policy_per_kind :
    ∀ (ienv : InfoEnv) (batch : List String) (c : Nat) (penv : PricesEnv)
      (fuel c₀ : Nat) (res : ResMap) (xs : List String),
      ((getStockInfoM ienv c batch).isEmpty = false →
        attemptFetchInfo ienv batch c 3
          = (getStockInfoM ienv c batch, c + 1, [Ev.call batch])) ∧
      ((getStockInfoM ienv c batch).isEmpty = true →
        (getStockInfoM ienv (c + 1) batch).isEmpty = false →
        attemptFetchInfo ienv batch c 3
          = (getStockInfoM ienv (c + 1) batch, c + 2,
             [Ev.call batch, Ev.sleepFor 2, Ev.call batch])) ∧
      ((getStockInfoM ienv c batch).isEmpty = true →
        (getStockInfoM ienv (c + 1) batch).isEmpty = true →
        (getStockInfoM ienv (c + 2) batch).isEmpty = true →
        attemptFetchInfo ienv batch c 3
          = ([], c + 3, [Ev.call batch, Ev.sleepFor 2, Ev.call batch,
             Ev.sleepFor 2, Ev.call batch])) ∧
      callsOf (runPriceBatches penv fuel c₀ res xs).2
        = sliceChunks 1000 fuel xs :=
  fun ienv batch c penv fuel c₀ res xs =>
    ⟨fun h => attemptFetchInfo_first_ok ienv batch c 2 h,
     attemptFetchInfo_second_ok ienv batch c,
     attemptFetchInfo_all_empty ienv batch c,
     runPriceBatches_calls_eq penv fuel c₀ res xs⟩

/-- Witness for C2 (amended): a batch failing once then succeeding gets
exactly two calls with one 2-second sleep, and the prices loop over one
batch performs exactly one call. -/
theorem retry_policy_per_kind_witness :
    attemptFetchInfo envInfoRetry ["A"] 0 3
      = (getStockInfoM envInfoRetry 1 ["A"], 2,
         [Ev.call ["A"], Ev.sleepFor 2, Ev.call ["A"]]) ∧
    callsOf (runPriceBatches envPricesOnce 1 0 (fun _ => none) ["A"]).2
      = sliceChunks 1000 1 ["A"] :=
  ⟨(retry_policy_per_kind envInfoRetry ["A"] 0 envPricesOnce 1 0
      (fun _ => none) ["A"]).2.1 (by decide) (by decide),
   (retry_policy_per_kind envInfoRetry ["A"] 0 envPricesOnce 1 0
      (fun _ => none) ["A"]).2.2.2⟩

theorem classifyInfo_fst_none_on_due (env : InfoEnv) (symbols : List String) :
    ∀ t ∈ (classifyInfo env symbols).2, (classifyInfo env symbols).1 t
      = none := by
  intro t ht
  rw [classifyInfo_snd] at ht
  have hdue := (List.mem_filter.mp ht).2
  rw [classifyInfo_fst]
  simp at hdue
  simp [hdue]

theorem classifyPrices_fst_none_on_due (env : PricesEnv)
    (symbols : List String) :
    ∀ t ∈ (classifyPrices env symbols).2, (classifyPrices env symbols).1 t
      = none := by
  intro t ht
  rw [classifyPrices_snd] at ht
  have hdue := (List.mem_filter.mp ht).2
  rw [classifyPrices_fst]
  simp at hdue
  simp [hdue]

/-- Claim C8: both orchestrators return normally with a per-entity map
covering every requested symbol for every provider behaviour; with a
provider that raises on every access, each symbol's entry is exactly the
negation of its due flag (due symbols False, fresh symbols True), so
provider failures surface as data, never as an exception. -/
theorem orchestrators_total_failures_as_false :
    ∀ (ienv : InfoEnv) (penv : PricesEnv) (symbols : List String)
      (s : String), s ∈ symbols →
      (∃ b, (update_tiker_info ienv symbols false).1 s = some b) ∧
      (∃ b, (update_tiker_prices penv symbols).1 s = some b) ∧
      (ienv.summaryRaises = false → (∀ c b, ienv.provider c b = none) →
        (update_tiker_info ienv symbols false).1 s
          = some (!dueInfoB ienv s)) ∧
      (penv.summaryRaises = false → (∀ c b, penv.provider c b = none) →
        (update_tiker_prices penv symbols).1 s
          = some (!duePricesB penv s)) := by
  intro ienv penv symbols s hmem
  have hifresh : dueInfoB ienv s = false → s ∉ (classifyInfo ienv symbols).2 := by
    intro hf hc
    rw [classifyInfo_snd] at hc
    have := (List.mem_filter.mp hc).2
    simp [hf] at this
  have hpfresh : duePricesB penv s = false →
      s ∉ (classifyPrices penv symbols).2 := by
    intro hf hc
    rw [classifyPrices_snd] at hc
    have := (List.mem_filter.mp hc).2
    simp [hf] at this
  refine ⟨?_, ?_, ?_, ?_⟩
  · cases hcle : (classifyInfo ienv symbols).2.isEmpty with
    | true =>
      rw [update_tiker_info_of_empty ienv symbols hcle]
      exact ⟨true, fromkeys_mem symbols true s hmem⟩
    | false =>
      cases hr : ienv.summaryRaises with
      | true =>
        rw [update_tiker_info_of_raise ienv symbols hcle hr]
        exact ⟨false, fromkeys_mem symbols false s hmem⟩
      | false =>
        rw [update_tiker_info_of_run ienv symbols hcle hr]
        by_cases hdue : s ∈ (classifyInfo ienv symbols).2
        · exact runInfoBatches_covers ienv _ 0 _ _ s (le_refl _) hdue
        · rw [runInfoBatches_not_mem ienv _ _ _ _ _ hdue, classifyInfo_fst]
          have hfr : dueInfoB ienv s = false := by
            by_contra hc
            rw [Bool.not_eq_false] at hc
            exact hdue (by
              rw [classifyInfo_snd]
              exact List.mem_filter.mpr ⟨hmem, by simp [hc]⟩)
          exact ⟨true, by simp [hmem, hfr]⟩
  · cases hcle : (classifyPrices penv symbols).2.isEmpty with
    | true =>
      rw [update_tiker_prices_of_empty penv symbols hcle]
      exact ⟨true, fromkeys_mem symbols true s hmem⟩
    | false =>
      cases hr : penv.summaryRaises with
      | true =>
        rw [update_tiker_prices_of_raise penv symbols hcle hr]
        exact ⟨false, fromkeys_mem symbols false s hmem⟩
      | false =>
        rw [update_tiker_prices_of_run penv symbols hcle hr]
        by_cases hdue : s ∈ (classifyPrices penv symbols).2
        · exact runPriceBatches_covers penv _ 0 _ _ s (le_refl _) hdue
        · rw [runPriceBatches_not_mem penv _ _ _ _ _ hdue, classifyPrices_fst]
          have hfr : duePricesB penv s = false := by
            by_contra hc
            rw [Bool.not_eq_false] at hc
            exact hdue (by
              rw [classifyPrices_snd]
              exact List.mem_filter.mpr ⟨hmem, by simp [hc]⟩)
          exact ⟨true, by simp [hmem, hfr]⟩
  · intro hr hp
    cases hdue : dueInfoB ienv s with
    | false =>
      cases hcle : (classifyInfo ienv symbols).2.isEmpty with
      | true =>
        rw [update_tiker_info_of_empty ienv symbols hcle]
        exact fromkeys_mem symbols true s hmem
      | false =>
        rw [update_tiker_info_of_run ienv symbols hcle hr,
          runInfoBatches_not_mem ienv _ _ _ _ _ (hifresh hdue),
          classifyInfo_fst]
        simp [hmem, hdue]
    | true =>
      have hin : s ∈ (classifyInfo ienv symbols).2 := by
        rw [classifyInfo_snd]
        exact List.mem_filter.mpr ⟨hmem, by simp [hdue]⟩
      have hcle : (classifyInfo ienv symbols).2.isEmpty = false :=
        List.isEmpty_eq_false_iff_exists_mem.mpr ⟨s, hin⟩
      rw [update_tiker_info_of_run ienv symbols hcle hr]
      cases hL : (classifyInfo ienv symbols).2.length with
      | zero =>
        rw [List.length_eq_zero.mp hL] at hin
        cases hin
      | succ k =>
        exact runInfoBatches_down ienv hp k 0 _ _ s hin
          (classifyInfo_fst_none_on_due ienv symbols)
  · intro hr hp
    cases hdue : duePricesB penv s with
    | false =>
      cases hcle : (classifyPrices penv symbols).2.isEmpty with
      | true =>
        rw [update_tiker_prices_of_empty penv symbols hcle]
        exact fromkeys_mem symbols true s hmem
      | false =>
        rw [update_tiker_prices_of_run penv symbols hcle hr,
          runPriceBatches_not_mem penv _ _ _ _ _ (hpfresh hdue),
          classifyPrices_fst]
        simp [hmem, hdue]
    | true =>
      have hin : s ∈ (classifyPrices penv symbols).2 := by
        rw [classifyPrices_snd]
        exact List.mem_filter.mpr ⟨hmem, by simp [hdue]⟩
      have hcle : (classifyPrices penv symbols).2.isEmpty = false :=
        List.isEmpty_eq_false_iff_exists_mem.mpr ⟨s, hin⟩
      rw [update_tiker_prices_of_run penv symbols hcle hr]
      exact runPriceBatches_down penv hp _ 0 _ _ s (le_refl _) hin

/-- Witness for C8: with providers raising on every access, the due
symbol A is recorded False by both orchestrators, which still return a
full map. -/
theorem orchestrators_total_failures_as_false_witness :
    (update_tiker_info envInfoDown ["A", "B"] false).1 "A"
      = some (!dueInfoB envInfoDown "A") ∧
    (update_tiker_prices envPricesDown ["A", "B"]).1 "A"
      = some (!duePricesB envPricesDown "A") ∧
    (∃ b, (update_tiker_info envInfoDown ["A", "B"] false).1 "A" = some b) :=
  ⟨(orchestrators_total_failures_as_false envInfoDown envPricesDown
      ["A", "B"] "A" (by decide)).2.2.1 rfl (fun _ _ => rfl),
   (orchestrators_total_failures_as_false envInfoDown envPricesDown
      ["A", "B"] "A" (by decide)).2.2.2 rfl (fun _ _ => rfl),
   (orchestrators_total_failures_as_false envInfoDown envPricesDown
      ["A", "B"] "A" (by decide)).1⟩

/-- Claim C10: an exception reaching the top-level handler (injected at
the summary stage, the only unguarded statement after results are
recorded) makes either function return False for every requested
symbol, overwriting the True of a symbol skipped as fresh — the same
run without the fault records that symbol True. -/
theorem top_level_exception_overwrites :
    ∀ (ienv : InfoEnv) (penv : PricesEnv) (symbols : List String)
      (s t : String),
      (ienv.summaryRaises = true → s ∈ symbols → dueInfoB ienv s = true →
        t ∈ symbols →
        (update_tiker_info ienv symbols false).1 t = some false) ∧
      (s ∈ symbols → dueInfoB ienv s = true →
        t ∈ symbols → dueInfoB ienv t = false →
        (update_tiker_info { ienv with summaryRaises := false } symbols
          false).1 t = some true) ∧
      (penv.summaryRaises = true → s ∈ symbols → duePricesB penv s = true →
        t ∈ symbols →
        (update_tiker_prices penv symbols).1 t = some false) ∧
      (s ∈ symbols → duePricesB penv s = true →
        t ∈ symbols → duePricesB penv t = false →
        (update_tiker_prices { penv with summaryRaises := false }
          symbols).1 t = some true) := by
  intro ienv penv symbols s t
  refine ⟨?_, ?_, ?_, ?_⟩
  · intro hr hs hdue ht
    have hin : s ∈ (classifyInfo ienv symbols).2 := by
      rw [classifyInfo_snd]
      exact List.mem_filter.mpr ⟨hs, by simp [hdue]⟩
    have hcle : (classifyInfo ienv symbols).2.isEmpty = false :=
      List.isEmpty_eq_false_iff_exists_mem.mpr ⟨s, hin⟩
    rw [update_tiker_info_of_raise ienv symbols hcle hr]
    exact fromkeys_mem symbols false t ht
  · intro hs hdue ht hfr
    have hfr' : dueInfoB { ienv with summaryRaises := false } t = false := hfr
    have hnotin : t ∉ (classifyInfo { ienv with summaryRaises := false }
        symbols).2 := by
      intro hc
      rw [classifyInfo_snd] at hc
      have := (List.mem_filter.mp hc).2
      simp [hfr'] at this
    cases hcle : (classifyInfo { ienv with summaryRaises := false }
        symbols).2.isEmpty with
    | true =>
      rw [update_tiker_info_of_empty _ symbols hcle]
      exact fromkeys_mem symbols true t ht
    | false =>
      rw [update_tiker_info_of_run _ symbols hcle rfl,
        runInfoBatches_not_mem _ _ _ _ _ _ hnotin, classifyInfo_fst]
      simp [ht, hfr']
  · intro hr hs hdue ht
    have hin : s ∈ (classifyPrices penv symbols).2 := by
      rw [classifyPrices_snd]
      exact List.mem_filter.mpr ⟨hs, by simp [hdue]⟩
    have hcle : (classifyPrices penv symbols).2.isEmpty = false :=
      List.isEmpty_eq_false_iff_exists_mem.mpr ⟨s, hin⟩
    rw [update_tiker_prices_of_raise penv symbols hcle hr]
    exact fromkeys_mem symbols false t ht
  · intro hs hdue ht hfr
    have hfr' : duePricesB { penv with summaryRaises := false } t
        = false := hfr
    have hnotin : t ∉ (classifyPrices { penv with summaryRaises := false }
        symbols).2 := by
      intro hc
      rw [classifyPrices_snd] at hc
      have := (List.mem_filter.mp hc).2
      simp [hfr'] at this
    cases hcle : (classifyPrices { penv with summaryRaises := false }
        symbols).2.isEmpty with
    | true =>
      rw [update_tiker_prices_of_empty _ symbols hcle]
      exact fromkeys_mem symbols true t ht
    | false =>
      rw [update_tiker_prices_of_run _ symbols hcle rfl,
        runPriceBatches_not_mem _ _ _ _ _ _ hnotin, classifyPrices_fst]
      simp [ht, hfr']

set_option maxRecDepth 8000 in
/-- Witness for C10: with the summary-stage fault, the fresh symbol A is
reported False although the same run without the fault reports it
True. -/
theorem top_level_exception_overwrites_witness :
    (update_tiker_info envInfoRaise ["A", "B"] false).1 "A" = some false ∧
    (update_tiker_info { envInfoRaise with summaryRaises := false }
      ["A", "B"] false).1 "A" = some true ∧
    (update_tiker_prices envPricesRaise ["A", "B"]).1 "A" = some false ∧
    (update_tiker_prices { envPricesRaise with summaryRaises := false }
      ["A", "B"]).1 "A" = some true :=
  ⟨(top_level_exception_overwrites envInfoRaise envPricesRaise ["A", "B"]
      "B" "A").1 rfl (by decide) (by decide) (by decide),
   (top_level_exception_overwrites envInfoRaise envPricesRaise ["A", "B"]
      "B" "A").2.1 (by decide) (by decide) (by decide) (by decide),
   (top_level_exception_overwrites envInfoRaise envPricesRaise ["A", "B"]
      "B" "A").2.2.1 rfl (by decide) (by decide) (by decide),
   (top_level_exception_overwrites envInfoRaise envPricesRaise ["A", "B"]
      "B" "A").2.2.2 (by decide) (by decide) (by decide) (by decide)⟩

/-- Claim C1: a Snapshot run whose batch loop aborts — some batch's three
provider attempts all returned empty — marks that whole batch False,
marks every due symbol of every not-yet-processed batch False with no
provider call containing it, leaves the results of already-processed
batches exactly as the batch loop over just those batches produces,
keeps skipped-fresh symbols True, and attempts no batch beyond the
aborting one. -/
theorem update_tiker_info_abort_escalation :
    ∀ (env : InfoEnv) (symbols : List String),
      env.summaryRaises = false → symbols.Nodup →
      (update_tiker_info env symbols false).2.2 = true →
      InfoAbortOutcome env symbols := by
  intro env symbols hnr hnd hab
  have hcle : (classifyInfo env symbols).2.isEmpty = false := by
    cases h : (classifyInfo env symbols).2.isEmpty with
    | false => rfl
    | true =>
      rw [update_tiker_info_of_empty env symbols h] at hab
      cases hab
  have hrun := update_tiker_info_of_run env symbols hcle hnr
  rw [hrun] at hab
  have hndcl : (classifyInfo env symbols).2.Nodup := by
    rw [classifyInfo_snd]
    exact hnd.filter _
  obtain ⟨j, c', hbadne, hatt, hbad, hrest, hpre, hcalls⟩ :=
    runInfoBatches_abort_spec env (classifyInfo env symbols).2.length 0
      (classifyInfo env symbols).1 (classifyInfo env symbols).2 (le_refl _)
      hndcl (classifyInfo_fst_none_on_due env symbols) hab
  refine ⟨j, c', ⟨⟨hbadne, hatt⟩, ?_⟩, ?_, ?_, ?_, ?_⟩
  · intro s hs
    rw [hrun]
    exact hbad s hs
  · intro s hs
    refine ⟨by rw [hrun]; exact (hrest s hs).1, ?_⟩
    intro bs hbs
    rw [hrun] at hbs
    exact (hrest s hs).2 bs hbs
  · intro s hs hfr
    have hnotin : s ∉ (classifyInfo env symbols).2 := by
      intro hc
      rw [classifyInfo_snd] at hc
      have := (List.mem_filter.mp hc).2
      simp [hfr] at this
    rw [hrun, runInfoBatches_not_mem env _ _ _ _ _ hnotin, classifyInfo_fst]
    simp [hs, hfr]
  · intro s hs
    rw [hrun]
    exact hpre s hs
  · intro bs hbs t ht
    rw [hrun] at hbs
    exact hcalls bs hbs t ht

/-- Witness for C1: with a provider raising on every access, the run over
the Nodup cohort [A, B] aborts and satisfies the abort outcome
formula. -/
theorem update_tiker_info_abort_escalation_witness :
    InfoAbortOutcome envInfoDown ["A", "B"] :=
  update_tiker_info_abort_escalation envInfoDown ["A", "B"] rfl
    (by decide) (by decide)

end StockAnalyzer
